import Mathlib

/-!
Verification development for the MR-CoPe GWAS harmonisation and
instrument-selection pipeline (`Scripts/02_gwas_preprocessing.py`, with the
p-value derivation of `Scripts/01_exploratory_analysis.py`).

The pandas dataframes of the source are embedded shallowly: a cell is an
idealized IEEE value (an exact rational, a signed infinity, NaN, or a string);
a row is an association list from column name to cell; a dataframe carries its
column list and its rows.  `Except.error` models an abnormal process end
(`sys.exit(1)` or an uncaught `KeyError`), under which no output file is
written; `Except.ok` models the normal path that writes the output file.
-/

namespace MRCoPe

/-- A pandas cell, idealized: `na` is NaN (which pandas also uses as the
missing value), `num q` a finite float represented exactly, `pinf`/`ninf` the
two infinities, `str s` a string entry. -/
inductive Cell where
  | na : Cell
  | num : ℚ → Cell
  | pinf : Cell
  | ninf : Cell
  | str : String → Cell
deriving DecidableEq, Repr

namespace Cell

/-- Squaring (`x ** 2` on a numeric series). -/
def sq : Cell → Cell
  | num q => num (q * q)
  | pinf => pinf
  | ninf => pinf
  | _ => na

/-- Absolute value (`abs` on a numeric series). -/
def cabs : Cell → Cell
  | num q => num |q|
  | pinf => pinf
  | ninf => pinf
  | _ => na

/-- IEEE-style division of numeric cells, as numpy performs it on series:
division by zero yields a signed infinity (NaN for 0/0), a finite value
divided by an infinity yields 0. -/
def cdiv : Cell → Cell → Cell
  | num a, num b =>
      if b = 0 then (if a = 0 then na else if 0 < a then pinf else ninf)
      else num (a / b)
  | num _, pinf => num 0
  | num _, ninf => num 0
  | pinf, num b => if 0 ≤ b then pinf else ninf
  | ninf, num b => if 0 ≤ b then ninf else pinf
  | _, _ => na

/-- Halving (`x / 2` on a numeric series). -/
def half : Cell → Cell
  | num q => num (q / 2)
  | pinf => pinf
  | ninf => ninf
  | _ => na

/-- Comparison `x >= t` against a finite threshold; false on NaN and strings,
as in pandas. -/
def ge (c : Cell) (t : ℚ) : Bool :=
  match c with
  | num q => t ≤ q
  | pinf => true
  | _ => false

/-- Comparison `x < t` against a finite threshold; false on NaN and strings,
as in pandas. -/
def lt (c : Cell) (t : ℚ) : Bool :=
  match c with
  | num q => q < t
  | ninf => true
  | _ => false

/-- The string payload of a cell, when it is a string (`.str` accessor:
non-strings give NaN). -/
def asStr : Cell → Option String
  | str s => some s
  | _ => none

end Cell

/-- A dataframe row: association list from column name to cell. -/
abbrev Row : Type := List (String × Cell)

namespace Row

/-- Reading a cell of a row; an absent key reads as NaN (pandas row access
within a column the frame is known to have). -/
def get (r : Row) (c : String) : Cell :=
  match List.lookup c r with
  | some v => v
  | none => Cell.na

/-- Writing a column value in a row (`df[c] = ...` at row level). -/
def set (r : Row) (c : String) (v : Cell) : Row :=
  (c, v) :: r.filter (fun p => p.1 ≠ c)

theorem get_set_same (r : Row) (c : String) (v : Cell) : (r.set c v).get c = v := by
  simp [Row.set, Row.get, List.lookup]

theorem lookup_filter_ne (r : List (String × Cell)) (c c' : String) (h : c' ≠ c) :
    List.lookup c' (r.filter (fun p => p.1 ≠ c)) = List.lookup c' r := by
  induction r with
  | nil => rfl
  | cons p ps ih =>
      by_cases hp : p.1 = c
      · rw [List.filter_cons_of_neg (by simp [hp])]
        rw [List.lookup_cons]
        have : (c' == p.1) = false := by
          simp only [beq_eq_false_iff_ne]
          rw [hp]; exact h
        rw [this]
        exact ih
      · rw [List.filter_cons_of_pos (by simp [hp])]
        rw [List.lookup_cons, List.lookup_cons]
        cases hb : (c' == p.1) with
        | true => rfl
        | false => exact ih

theorem get_set_other (r : Row) (c c' : String) (v : Cell) (h : c' ≠ c) :
    (r.set c v).get c' = r.get c' := by
  unfold Row.set Row.get
  rw [List.lookup_cons]
  have hb : (c' == c) = false := by simp only [beq_eq_false_iff_ne]; exact h
  rw [hb, lookup_filter_ne _ _ _ h]

end Row

/-- A dataframe: a column list together with the rows. -/
structure DF where
  cols : List String
  rows : List Row
deriving DecidableEq

namespace DF

/-- Row filtering (`df[mask]`): columns are unchanged. -/
def filterRows (df : DF) (p : Row → Bool) : DF :=
  ⟨df.cols, df.rows.filter p⟩

/-- Column assignment (`df[c] = f(row)`): every row gets the new value, and
the column is appended to the schema when new. -/
def setCol (df : DF) (c : String) (f : Row → Cell) : DF :=
  ⟨if c ∈ df.cols then df.cols else df.cols ++ [c],
   df.rows.map (fun r => r.set c (f r))⟩

/-- Whether a row has a NaN under any of the frame's columns. -/
def rowHasNa (df : DF) (r : Row) : Bool :=
  df.cols.any (fun c => r.get c = Cell.na)

/-- `df.dropna()`: drop every row holding a NaN in any column. -/
def dropna (df : DF) : DF :=
  df.filterRows (fun r => ! df.rowHasNa r)

@[simp] theorem filterRows_cols (df : DF) (p : Row → Bool) : (df.filterRows p).cols = df.cols := rfl

@[simp] theorem dropna_cols (df : DF) : df.dropna.cols = df.cols := rfl

end DF

/-! ### Schema Normalizer (`AUTO_COLUMN_MAP`, `auto_map_columns`) -/

/-- The alias table of the source: each canonical field with its
priority-ordered list of accepted lowercase aliases. -/
def AUTO_COLUMN_MAP : List (String × List String) :=
  [("SNP", ["snp", "rsid", "marker", "rs_number", "rsids"]),
   ("CHR", ["chr", "chromosome", "chrom"]),
   ("BP", ["bp", "position", "pos"]),
   ("A1", ["a1", "effect_allele", "ea", "alt"]),
   ("A2", ["a2", "other_allele", "oa", "ref"]),
   ("BETA", ["beta", "effect_size", "b"]),
   ("SE", ["se", "stderr", "standard_error"]),
   ("PVALUE", ["pval", "p_value", "p"]),
   ("EAF", ["eaf", "effect_allele_freq", "freq", "riskfrequency", "maf"])]

/-- Lowercasing of a header for comparison (Python `str.lower`), executable
over the character list. -/
def lowerStr (s : String) : String :=
  String.mk (s.data.map Char.toLower)

/-- Both-sided whitespace strip of a header (pandas `.str.strip()`),
executable over the character list. -/
def trimStr (s : String) : String :=
  String.mk (((s.data.dropWhile Char.isWhitespace).reverse.dropWhile
    Char.isWhitespace).reverse)

/-- Index of the first column whose lowercase form equals the alias
(`df_cols_lower.index(possible)` guarded by the `in` test). -/
def lowerIndex : List String → String → Option ℕ
  | [], _ => none
  | c :: cs, a => if lowerStr c = a then some 0 else (lowerIndex cs a).map (· + 1)

/-- Scan one alias list in priority order and return the original-cased column
matched by the first alias present among the lowered columns (the inner loop
of `auto_map_columns`). -/
def firstAliasMatch (cols : List String) : List String → Option String
  | [] => none
  | a :: rest =>
      match lowerIndex cols a with
      | some i => cols.get? i
      | none => firstAliasMatch cols rest

/-- Build the canonical-field to source-column mapping for an alias table
(the outer loop of `auto_map_columns`). -/
def mapColumns (amap : List (String × List String)) (cols : List String) :
    List (String × String) :=
  amap.filterMap (fun e => (firstAliasMatch cols e.2).map (fun c => (e.1, c)))

/-- The canonical fields that stay unmapped, in table order: one warning is
printed for each of them. -/
def unmappedFields (amap : List (String × List String)) (cols : List String) :
    List String :=
  amap.filterMap (fun e => if firstAliasMatch cols e.2 = none then some e.1 else none)

/-- `auto_map_columns` of the source, on a column list. -/
def auto_map_columns (cols : List String) : List (String × String) :=
  mapColumns AUTO_COLUMN_MAP cols

/-- The per-field warnings `auto_map_columns` emits. -/
def auto_map_warnings (cols : List String) : List String :=
  unmappedFields AUTO_COLUMN_MAP cols

/-- Header whitespace trimming applied by `load_gwas` before mapping
(`df.columns.str.strip()`). -/
def strippedCols (cols : List String) : List String :=
  cols.map trimStr

theorem lowerIndex_get (cols : List String) (a : String) :
    (lowerIndex cols a).bind cols.get? = cols.find? (fun c => lowerStr c == a) := by
  induction cols with
  | nil => rfl
  | cons c cs ih =>
      by_cases h : lowerStr c = a
      · rw [lowerIndex, if_pos h, List.find?_cons_of_pos _ (by simp [h])]
        rfl
      · rw [lowerIndex, if_neg h, List.find?_cons_of_neg _ (by simp [h]), ← ih]
        cases hl : lowerIndex cs a with
        | none => rfl
        | some i => simp

theorem lowerIndex_eq_none_iff (cols : List String) (a : String) :
    lowerIndex cols a = none ↔ cols.any (fun c => lowerStr c == a) = false := by
  induction cols with
  | nil => simp [lowerIndex]
  | cons c cs ih =>
      rw [lowerIndex, List.any_cons]
      by_cases h : lowerStr c = a
      · simp [h]
      · have hb : (lowerStr c == a) = false := beq_eq_false_iff_ne.mpr h
        rw [if_neg h, hb, Bool.false_or, Option.map_eq_none']
        exact ih

theorem firstAliasMatch_eq (cols : List String) (al : List String) :
    firstAliasMatch cols al =
      (al.find? (fun a => cols.any (fun c => lowerStr c == a))).bind
        (fun a => cols.find? (fun c => lowerStr c == a)) := by
  induction al with
  | nil => rfl
  | cons a rest ih =>
      by_cases h : cols.any (fun c => lowerStr c == a) = true
      · rw [@List.find?_cons_of_pos _ (fun x => cols.any (fun c => lowerStr c == x)) a rest h,
          Option.some_bind]
        have hidx : lowerIndex cols a ≠ none := by
          rw [Ne, lowerIndex_eq_none_iff]
          simp [h]
        have hg := lowerIndex_get cols a
        rw [firstAliasMatch]
        cases hl : lowerIndex cols a with
        | none => exact absurd hl hidx
        | some i =>
            rw [hl, Option.some_bind] at hg
            exact hg
      · have h' : cols.any (fun c => lowerStr c == a) = false := by
          simpa using h
        rw [@List.find?_cons_of_neg _ (fun x => cols.any (fun c => lowerStr c == x)) a rest
            (by simp [h']),
          firstAliasMatch, (lowerIndex_eq_none_iff cols a).mpr h']
        exact ih

theorem lookup_mapColumns_of_notMem (amap : List (String × List String))
    (cols : List String) (X : String) (hX : X ∉ amap.map Prod.fst) :
    List.lookup X (mapColumns amap cols) = none := by
  induction amap with
  | nil => rfl
  | cons e rest ih =>
      simp only [List.map_cons, List.mem_cons, not_or] at hX
      simp only [mapColumns, List.filterMap_cons]
      cases hm : firstAliasMatch cols e.2 with
      | none => exact ih hX.2
      | some c =>
          rw [Option.map_some', List.lookup_cons, beq_eq_false_iff_ne.mpr hX.1]
          exact ih hX.2

theorem lookup_mapColumns (amap : List (String × List String)) (cols : List String)
    (X : String) (al : List String) (hnd : (amap.map Prod.fst).Nodup)
    (hmem : (X, al) ∈ amap) :
    List.lookup X (mapColumns amap cols) = firstAliasMatch cols al := by
  induction amap with
  | nil => cases hmem
  | cons e rest ih =>
      simp only [List.map_cons, List.nodup_cons] at hnd
      rcases List.mem_cons.mp hmem with he | ht
      · have hkey : e.1 = X := by rw [← he]
        have hal : e.2 = al := by rw [← he]
        simp only [mapColumns, List.filterMap_cons, hal]
        cases hm : firstAliasMatch cols al with
        | some c =>
            rw [Option.map_some', List.lookup_cons, hkey, beq_self_eq_true]
        | none =>
            exact lookup_mapColumns_of_notMem rest cols X (hkey ▸ hnd.1)
      · have hkey : X ∈ rest.map Prod.fst := List.mem_map.mpr ⟨(X, al), ht, rfl⟩
        have hne : X ≠ e.1 := fun hEq => hnd.1 (hEq ▸ hkey)
        simp only [mapColumns, List.filterMap_cons]
        cases hm : firstAliasMatch cols e.2 with
        | none => exact ih hnd.2 ht
        | some c =>
            rw [Option.map_some', List.lookup_cons, beq_eq_false_iff_ne.mpr hne]
            exact ih hnd.2 ht

theorem count_unmappedFields_of_notMem (amap : List (String × List String))
    (cols : List String) (X : String) (hX : X ∉ amap.map Prod.fst) :
    (unmappedFields amap cols).count X = 0 := by
  induction amap with
  | nil => rfl
  | cons e rest ih =>
      simp only [List.map_cons, List.mem_cons, not_or] at hX
      simp only [unmappedFields, List.filterMap_cons]
      by_cases hm : firstAliasMatch cols e.2 = none
      · have hb : (e.1 == X) = false :=
          beq_eq_false_iff_ne.mpr (fun h => hX.1 h.symm)
        rw [if_pos hm, List.count_cons, hb]
        simpa [unmappedFields] using ih hX.2
      · rw [if_neg hm]
        exact ih hX.2

theorem count_unmappedFields_of_none (amap : List (String × List String))
    (cols : List String) (X : String) (al : List String)
    (hnd : (amap.map Prod.fst).Nodup) (hmem : (X, al) ∈ amap)
    (hm : firstAliasMatch cols al = none) :
    (unmappedFields amap cols).count X = 1 := by
  induction amap with
  | nil => cases hmem
  | cons e rest ih =>
      simp only [List.map_cons, List.nodup_cons] at hnd
      simp only [unmappedFields, List.filterMap_cons]
      rcases List.mem_cons.mp hmem with he | ht
      · have hkey : e.1 = X := by rw [← he]
        have hal : e.2 = al := by rw [← he]
        have hrest := count_unmappedFields_of_notMem rest cols X (hkey ▸ hnd.1)
        simp only [unmappedFields] at hrest
        rw [hal, if_pos hm, List.count_cons, hkey, beq_self_eq_true, hrest]
        simp
      · have hkey : X ∈ rest.map Prod.fst := List.mem_map.mpr ⟨(X, al), ht, rfl⟩
        have hne : X ≠ e.1 := fun hEq => hnd.1 (hEq ▸ hkey)
        by_cases hme : firstAliasMatch cols e.2 = none
        · have hb : (e.1 == X) = false :=
            beq_eq_false_iff_ne.mpr (fun h => hne h.symm)
          rw [if_pos hme, List.count_cons, hb]
          simpa [unmappedFields] using ih hnd.2 ht
        · rw [if_neg hme]
          exact ih hnd.2 ht

theorem mem_unmappedFields (amap : List (String × List String)) (cols : List String)
    (Y : String) :
    Y ∈ unmappedFields amap cols ↔
      ∃ bl, (Y, bl) ∈ amap ∧ firstAliasMatch cols bl = none := by
  unfold unmappedFields
  rw [List.mem_filterMap]
  constructor
  · rintro ⟨e, he, hfe⟩
    by_cases hm : firstAliasMatch cols e.2 = none
    · rw [if_pos hm] at hfe
      refine ⟨e.2, ?_, hm⟩
      obtain rfl : e.1 = Y := by injection hfe
      exact he
    · rw [if_neg hm] at hfe
      cases hfe
  · rintro ⟨bl, hmem, hnone⟩
    exact ⟨(Y, bl), hmem, by simp [hnone]⟩

theorem auto_column_map_keys_nodup : (AUTO_COLUMN_MAP.map Prod.fst).Nodup := by
  decide

theorem alias_list_unique (amap : List (String × List String))
    (hnd : (amap.map Prod.fst).Nodup) (X : String) (al bl : List String)
    (h1 : (X, al) ∈ amap) (h2 : (X, bl) ∈ amap) : al = bl := by
  induction amap with
  | nil => cases h1
  | cons e rest ih =>
      simp only [List.map_cons, List.nodup_cons] at hnd
      rcases List.mem_cons.mp h1 with he1 | ht1
      · rcases List.mem_cons.mp h2 with he2 | ht2
        · rw [← he1] at he2
          injection he2 with _ hsnd
          exact hsnd.symm
        · exfalso
          have hk : e.1 = X := by rw [← he1]
          exact hnd.1 (hk ▸ List.mem_map.mpr ⟨(X, bl), ht2, rfl⟩)
      · rcases List.mem_cons.mp h2 with he2 | ht2
        · exfalso
          have hk : e.1 = X := by rw [← he2]
          exact hnd.1 (hk ▸ List.mem_map.mpr ⟨(X, al), ht1, rfl⟩)
        · exact ih hnd.2 ht1 ht2

/-- C2: for every input table and every canonical field X: if at least one
source column header, after whitespace trimming and case-insensitive
comparison, equals an alias of X, then the Schema Normalizer maps X to the
column matching the earliest-priority alias in X's alias list (first match
short-circuits); if no alias matches, X is left unmapped and exactly one
warning is emitted for X, non-fatally. -/
theorem C2_schema_normalizer_priority (cols : List String) (X : String)
    (al : List String) (hmem : (X, al) ∈ AUTO_COLUMN_MAP) :
    (∀ a0, al.find? (fun a => (strippedCols cols).any (fun c => lowerStr c == a)) = some a0 →
        List.lookup X (auto_map_columns (strippedCols cols)) =
          (strippedCols cols).find? (fun c => lowerStr c == a0) ∧
        X ∉ auto_map_warnings (strippedCols cols)) ∧
    (al.find? (fun a => (strippedCols cols).any (fun c => lowerStr c == a)) = none →
        List.lookup X (auto_map_columns (strippedCols cols)) = none ∧
        (auto_map_warnings (strippedCols cols)).count X = 1) := by
  have hlk : List.lookup X (auto_map_columns (strippedCols cols)) =
      firstAliasMatch (strippedCols cols) al :=
    lookup_mapColumns AUTO_COLUMN_MAP (strippedCols cols) X al
      auto_column_map_keys_nodup hmem
  constructor
  · intro a0 hfind
    have hfam : firstAliasMatch (strippedCols cols) al =
        (strippedCols cols).find? (fun c => lowerStr c == a0) := by
      rw [firstAliasMatch_eq, hfind, Option.some_bind]
    refine ⟨by rw [hlk, hfam], ?_⟩
    intro hw
    rcases (mem_unmappedFields AUTO_COLUMN_MAP (strippedCols cols) X).mp hw with
      ⟨bl, hbl, hnone⟩
    have hble : al = bl :=
      alias_list_unique AUTO_COLUMN_MAP auto_column_map_keys_nodup X al bl hmem hbl
    rw [← hble, firstAliasMatch_eq, hfind, Option.some_bind] at hnone
    have ha0 : (strippedCols cols).any (fun c => lowerStr c == a0) = true := by
      have := List.find?_some hfind
      simpa using this
    rcases List.any_eq_true.mp ha0 with ⟨c, hc, hcl⟩
    exact absurd hcl (by simpa using List.find?_eq_none.mp hnone c hc)
  · intro hfind
    have hfam : firstAliasMatch (strippedCols cols) al = none := by
      rw [firstAliasMatch_eq, hfind]
      rfl
    exact ⟨by rw [hlk, hfam],
      count_unmappedFields_of_none AUTO_COLUMN_MAP (strippedCols cols) X al
        auto_column_map_keys_nodup hmem hfam⟩

/-- Witness for C2: a table with headers `Standard_Error` and `  StdErr  `
(note the whitespace).  For the canonical field SE the alias `stderr` has
higher priority than `standard_error`, so SE maps to the trimmed `StdErr`
column even though `Standard_Error` appears first, and no warning is emitted
for SE. -/
theorem C2_schema_normalizer_priority_witness :
    (∀ a0, ["se", "stderr", "standard_error"].find?
          (fun a => (strippedCols ["Standard_Error", "  StdErr  "]).any
            (fun c => lowerStr c == a)) = some a0 →
        List.lookup "SE" (auto_map_columns (strippedCols ["Standard_Error", "  StdErr  "])) =
          (strippedCols ["Standard_Error", "  StdErr  "]).find? (fun c => lowerStr c == a0) ∧
        "SE" ∉ auto_map_warnings (strippedCols ["Standard_Error", "  StdErr  "])) ∧
    (["se", "stderr", "standard_error"].find?
          (fun a => (strippedCols ["Standard_Error", "  StdErr  "]).any
            (fun c => lowerStr c == a)) = none →
        List.lookup "SE" (auto_map_columns (strippedCols ["Standard_Error", "  StdErr  "])) = none ∧
        (auto_map_warnings (strippedCols ["Standard_Error", "  StdErr  "])).count "SE" = 1) :=
  C2_schema_normalizer_priority ["Standard_Error", "  StdErr  "] "SE"
    ["se", "stderr", "standard_error"] (by decide)

/-! ### Fallback Structured Parser (`parse_custom_gwas`) -/

/-- Substring before the first occurrence of the separator
(`s.split(sep)[0]`). -/
def fieldBefore (sep : Char) (s : String) : String :=
  String.mk (s.data.takeWhile (fun c => c != sep))

/-- Substring between the first and second occurrence of the separator
(`s.split(sep)[1]`); absent when the separator does not occur. -/
def fieldSecond (sep : Char) (s : String) : Option String :=
  match s.data.dropWhile (fun c => c != sep) with
  | [] => none
  | _ :: rest => some (String.mk (rest.takeWhile (fun c => c != sep)))

/-- Whether the string holds a character that is not a decimal digit
(the regex `\D`). -/
def hasNonDigit (s : String) : Bool :=
  s.data.any (fun c => ! c.isDigit)

/-- The first maximal run of decimal digits (`str.extract(r"(\d+)")`);
absent when there is no digit at all. -/
def firstDigitRun (s : String) : Option String :=
  match s.data.dropWhile (fun c => ! c.isDigit) with
  | [] => none
  | c :: rest => some (String.mk ((c :: rest).takeWhile Char.isDigit))

/-- Numeric value of a run of decimal digits. -/
def digitsVal (l : List Char) : ℕ :=
  l.foldl (fun n c => 10 * n + (c.toNat - 48)) 0

/-- Parse of a nonempty all-digit character list. -/
def parseNatDigits? (l : List Char) : Option ℕ :=
  if l ≠ [] ∧ l.all Char.isDigit then some (digitsVal l) else none

/-- Splitting a leading sign off a literal. -/
def parseSign (l : List Char) : ℚ × List Char :=
  match l with
  | [] => (1, [])
  | c :: rest => if c = '-' then (-1, rest) else if c = '+' then (1, rest) else (1, l)

/-- Parse of an optionally signed integer (exponent part). -/
def parseExpInt? (l : List Char) : Option ℤ :=
  let sm := parseSign l
  (parseNatDigits? sm.2).map (fun n => if sm.1 < 0 then -(n : ℤ) else (n : ℤ))

/-- Parse of an unsigned decimal mantissa: digits with an optional fraction
part. -/
def parseUnsigned? (l : List Char) : Option ℚ :=
  let ip := l.takeWhile Char.isDigit
  match l.drop ip.length with
  | [] => (parseNatDigits? ip).map (fun n => (n : ℚ))
  | '.' :: fr =>
      if ip ≠ [] ∧ fr ≠ [] ∧ fr.all Char.isDigit then
        some ((digitsVal ip : ℚ) + (digitsVal fr : ℚ) / ((10 : ℚ) ^ fr.length))
      else none
  | _ => none

/-- Parse of a decimal literal with optional sign and exponent (the slice of
the `pd.to_numeric` string grammar this pipeline relies on). -/
def parseRat? (s : String) : Option ℚ :=
  let l := s.data
  let mant := l.takeWhile (fun c => !(c == 'e' || c == 'E'))
  let sm := parseSign mant
  let m? : Option ℚ := (parseUnsigned? sm.2).map (fun q => sm.1 * q)
  match l.drop mant.length with
  | [] => m?
  | _ :: ex =>
      match m?, parseExpInt? ex with
      | some m, some e => some (m * (10 : ℚ) ^ e)
      | _, _ => none

/-- `pd.to_numeric(_, errors="coerce")` on one cell: numeric values pass
through, strings parse or coerce to NaN. -/
def toNumeric : Cell → Cell
  | Cell.num q => Cell.num q
  | Cell.pinf => Cell.pinf
  | Cell.ninf => Cell.ninf
  | Cell.str s =>
      match parseRat? s with
      | some q => Cell.num q
      | none => Cell.na
  | Cell.na => Cell.na

/-- One row's SNP cell: `df["riskAllele"].str.split("-").str[0]`. -/
def snpOfRaw (r : Row) : Cell :=
  match (r.get "riskAllele").asStr with
  | some s => Cell.str (fieldBefore '-' s)
  | none => Cell.na

/-- One row's CHR cell: `df["locations"].str.split(":").str[0]`. -/
def chrOfRaw (r : Row) : Cell :=
  match (r.get "locations").asStr with
  | some s => Cell.str (fieldBefore ':' s)
  | none => Cell.na

/-- One row's raw BP substring: `df["locations"].str.split(":").str[1]`. -/
def rawBpOf (r : Row) : Option String :=
  (r.get "locations").asStr.bind (fieldSecond ':')

/-- The column-level decision of the parser: whether any row's raw BP
substring holds a non-digit (`raw_bp.str.contains(r"\D").any()`; NaN entries
are skipped, as pandas `any` does). -/
def anyNonDigitBp (df : DF) : Bool :=
  df.rows.any (fun r =>
    match rawBpOf r with
    | some s => hasNonDigit s
    | none => false)

/-- The BP cell before the numeric cast: the raw substring, or its first
digit run when the column-level extraction was triggered. -/
def bpStrCell (flag : Bool) (r : Row) : Cell :=
  match rawBpOf r with
  | none => Cell.na
  | some s =>
      if flag then
        match firstDigitRun s with
        | some d => Cell.str d
        | none => Cell.na
      else Cell.str s

/-- The transformation `parse_custom_gwas` applies to one row, given the
column-level extraction decision. -/
def parseCustomRow (flag : Bool) (r : Row) : Row :=
  (((r.set "SNP" (snpOfRaw r)).set "CHR" (chrOfRaw r)).set "BP"
      (toNumeric (bpStrCell flag r))).set "PVALUE" (toNumeric (r.get "pValue"))

/-- `df.dropna(subset=...)`: drop the rows with NaN in one of the listed
columns. -/
def dropnaSubset (df : DF) (subset : List String) : DF :=
  df.filterRows (fun r => subset.all (fun c => !(r.get c == Cell.na)))

/-- Adding a column name to a schema when it is not already present. -/
def addColIfNew (cols : List String) (c : String) : List String :=
  if c ∈ cols then cols else cols ++ [c]

/-- `parse_custom_gwas` of the source: derive SNP from the combined allele
field, CHR/BP from the locus field (extracting digits when any BP substring
has a non-digit), coerce BP and PVALUE to numbers, and drop the rows where
any of the four fails to parse. -/
def parse_custom_gwas (df : DF) : DF :=
  let flag := anyNonDigitBp df
  dropnaSubset
    ⟨addColIfNew (addColIfNew (addColIfNew (addColIfNew df.cols "SNP") "CHR") "BP") "PVALUE",
     df.rows.map (parseCustomRow flag)⟩
    ["SNP", "CHR", "BP", "PVALUE"]

theorem parseCustomRow_get_raw (flag : Bool) (r : Row) (c : String)
    (h1 : c ≠ "SNP") (h2 : c ≠ "CHR") (h3 : c ≠ "BP") (h4 : c ≠ "PVALUE") :
    (parseCustomRow flag r).get c = r.get c := by
  unfold parseCustomRow
  rw [Row.get_set_other _ _ _ _ h4, Row.get_set_other _ _ _ _ h3,
    Row.get_set_other _ _ _ _ h2, Row.get_set_other _ _ _ _ h1]

theorem parseCustomRow_get_snp (flag : Bool) (r : Row) :
    (parseCustomRow flag r).get "SNP" = snpOfRaw r := by
  unfold parseCustomRow
  rw [Row.get_set_other _ _ _ _ (by decide), Row.get_set_other _ _ _ _ (by decide),
    Row.get_set_other _ _ _ _ (by decide), Row.get_set_same]

theorem parseCustomRow_get_chr (flag : Bool) (r : Row) :
    (parseCustomRow flag r).get "CHR" = chrOfRaw r := by
  unfold parseCustomRow
  rw [Row.get_set_other _ _ _ _ (by decide), Row.get_set_other _ _ _ _ (by decide),
    Row.get_set_same]

theorem parseCustomRow_get_bp (flag : Bool) (r : Row) :
    (parseCustomRow flag r).get "BP" = toNumeric (bpStrCell flag r) := by
  unfold parseCustomRow
  rw [Row.get_set_other _ _ _ _ (by decide), Row.get_set_same]

theorem parseCustomRow_get_pvalue (flag : Bool) (r : Row) :
    (parseCustomRow flag r).get "PVALUE" = toNumeric (r.get "pValue") := by
  unfold parseCustomRow
  rw [Row.get_set_same]

theorem isDigit_ne_special (c : Char) (h : c.isDigit = true) :
    c ≠ 'e' ∧ c ≠ 'E' ∧ c ≠ '-' ∧ c ≠ '+' ∧ c ≠ '.' := by
  refine ⟨?_, ?_, ?_, ?_, ?_⟩ <;> (intro he; rw [he] at h; exact absurd h (by decide))

theorem all_digit_firstDigitRun (l : List Char) (hne : l ≠ [])
    (hall : l.all Char.isDigit = true) :
    firstDigitRun (String.mk l) = some (String.mk l) := by
  unfold firstDigitRun
  cases l with
  | nil => exact absurd rfl hne
  | cons c rest =>
      simp only [List.all_cons, Bool.and_eq_true] at hall
      have hdrop : List.dropWhile (fun c => ! c.isDigit) (c :: rest) = c :: rest :=
        List.dropWhile_cons_of_neg (by simp [hall.1])
      simp only [hdrop]
      have htake : List.takeWhile Char.isDigit (c :: rest) = c :: rest :=
        List.takeWhile_eq_self_iff.mpr (by
          intro x hx
          rcases List.mem_cons.mp hx with h | h
          · rw [h]; exact hall.1
          · exact List.all_eq_true.mp hall.2 x h)
      simp only [htake]

theorem parseUnsigned?_digits (l : List Char) (hne : l ≠ [])
    (hall : l.all Char.isDigit = true) :
    parseUnsigned? l = some ((digitsVal l : ℕ) : ℚ) := by
  unfold parseUnsigned?
  have htake : List.takeWhile Char.isDigit l = l :=
    List.takeWhile_eq_self_iff.mpr (fun x hx => List.all_eq_true.mp hall x hx)
  simp only [htake, List.drop_length]
  unfold parseNatDigits?
  rw [if_pos ⟨hne, hall⟩]
  rfl

theorem parseRat?_digits (l : List Char) (hne : l ≠ [])
    (hall : l.all Char.isDigit = true) :
    parseRat? (String.mk l) = some ((digitsVal l : ℕ) : ℚ) := by
  unfold parseRat?
  have hmant : List.takeWhile (fun c => !(c == 'e' || c == 'E')) l = l := by
    apply List.takeWhile_eq_self_iff.mpr
    intro x hx
    rcases isDigit_ne_special x (List.all_eq_true.mp hall x hx) with ⟨he, hE, _, _, _⟩
    simp [he, hE]
  simp only [hmant, List.drop_length]
  cases l with
  | nil => exact absurd rfl hne
  | cons c rest =>
      have hall' := hall
      simp only [List.all_cons, Bool.and_eq_true] at hall'
      rcases isDigit_ne_special c hall'.1 with ⟨_, _, hminus, hplus, _⟩
      have hsign : parseSign (c :: rest) = (1, c :: rest) := by
        unfold parseSign
        dsimp only
        rw [if_neg hminus, if_neg hplus]
      rw [hsign]
      have hu := parseUnsigned?_digits (c :: rest) hne hall
      rw [hu]
      simp

/-- The row-level BP rule of the specification: the raw substring when it is
all digits, its first maximal digit run when it holds a non-digit. -/
def bpRowDescr (r : Row) : Cell :=
  match rawBpOf r with
  | none => Cell.na
  | some s =>
      if hasNonDigit s then
        match firstDigitRun s with
        | some d => Cell.str d
        | none => Cell.na
      else Cell.str s

theorem bp_colwise_eq_rowwise (df : DF) (r : Row) (hr : r ∈ df.rows) :
    toNumeric (bpStrCell (anyNonDigitBp df) r) = toNumeric (bpRowDescr r) := by
  unfold bpStrCell bpRowDescr
  cases hb : rawBpOf r with
  | none => rfl
  | some s =>
      dsimp only
      by_cases hnd : hasNonDigit s = true
      · have hflag : anyNonDigitBp df = true :=
          List.any_eq_true.mpr ⟨r, hr, by rw [hb]; exact hnd⟩
        rw [hflag, hnd]
      · have hnd' : hasNonDigit s = false := by simpa using hnd
        rw [hnd']
        simp only [Bool.false_eq_true, if_false]
        cases hflag : anyNonDigitBp df with
        | false => simp
        | true =>
            simp only [if_true]
            obtain ⟨l⟩ := s
            by_cases hse : l = []
            · subst hse
              rfl
            · have hall : l.all Char.isDigit = true := by
                apply List.all_eq_true.mpr
                intro x hx
                by_contra hxd
                have : hasNonDigit (String.mk l) = true :=
                  List.any_eq_true.mpr ⟨x, hx, by simp [hxd]⟩
                rw [hnd'] at this
                cases this
              rw [all_digit_firstDigitRun l hse hall]

theorem dropWhile_head_not {α : Type} (p : α → Bool) (l : List α) (c : α)
    (rest : List α) (h : l.dropWhile p = c :: rest) : p c = false := by
  induction l with
  | nil => cases h
  | cons a l' ih =>
      by_cases hp : p a = true
      · rw [List.dropWhile_cons_of_pos hp] at h
        exact ih h
      · rw [List.dropWhile_cons_of_neg hp] at h
        injection h with h1 _
        rw [← h1]
        simpa using hp

theorem firstDigitRun_digits (s d : String) (h : firstDigitRun s = some d) :
    d.data ≠ [] ∧ d.data.all Char.isDigit = true := by
  unfold firstDigitRun at h
  cases hdw : s.data.dropWhile (fun c => ! c.isDigit) with
  | nil => rw [hdw] at h; cases h
  | cons c rest =>
      rw [hdw] at h
      injection h with h1
      have hc : c.isDigit = true := by
        have := dropWhile_head_not _ _ _ _ hdw
        simpa using this
      rw [← h1]
      constructor
      · rw [List.takeWhile_cons_of_pos hc]
        simp
      · apply List.all_eq_true.mpr
        intro x hx
        rw [List.takeWhile_cons_of_pos hc] at hx
        rcases List.mem_cons.mp hx with hx | hx
        · rw [hx]; exact hc
        · exact List.mem_takeWhile_imp hx

theorem toNumeric_bpRowDescr_nat (r : Row) :
    toNumeric (bpRowDescr r) = Cell.na ∨
      ∃ n : ℕ, toNumeric (bpRowDescr r) = Cell.num (n : ℚ) := by
  unfold bpRowDescr
  cases hb : rawBpOf r with
  | none => exact Or.inl rfl
  | some s =>
      dsimp only
      by_cases hnd : hasNonDigit s = true
      · rw [hnd]
        simp only [if_true]
        cases hfd : firstDigitRun s with
        | none => exact Or.inl rfl
        | some d =>
            rcases firstDigitRun_digits s d hfd with ⟨hne, hall⟩
            right
            refine ⟨digitsVal d.data, ?_⟩
            have hpr : parseRat? d = some ((digitsVal d.data : ℕ) : ℚ) :=
              parseRat?_digits d.data hne hall
            unfold toNumeric
            dsimp only
            rw [hpr]
      · have hnd' : hasNonDigit s = false := by simpa using hnd
        rw [hnd']
        simp only [Bool.false_eq_true, if_false]
        obtain ⟨l⟩ := s
        by_cases hse : l = []
        · subst hse
          exact Or.inl rfl
        · have hall : l.all Char.isDigit = true := by
            apply List.all_eq_true.mpr
            intro x hx
            by_contra hxd
            have : hasNonDigit (String.mk l) = true :=
              List.any_eq_true.mpr ⟨x, hx, by simp [hxd]⟩
            rw [hnd'] at this
            cases this
          right
          refine ⟨digitsVal l, ?_⟩
          have hpr := parseRat?_digits l hse hall
          unfold toNumeric
          dsimp only
          rw [hpr]

theorem mem_parse_custom (df : DF) (r : Row) (hr : r ∈ df.rows) :
    parseCustomRow (anyNonDigitBp df) r ∈ (parse_custom_gwas df).rows ↔
      ∀ c ∈ (["SNP", "CHR", "BP", "PVALUE"] : List String),
        (parseCustomRow (anyNonDigitBp df) r).get c ≠ Cell.na := by
  unfold parse_custom_gwas dropnaSubset DF.filterRows
  dsimp only
  rw [List.mem_filter]
  constructor
  · rintro ⟨_, hkeep⟩
    intro c hc
    have := List.all_eq_true.mp hkeep c hc
    simpa using this
  · intro h
    refine ⟨List.mem_map.mpr ⟨r, hr, rfl⟩, ?_⟩
    apply List.all_eq_true.mpr
    intro c hc
    simpa using h c hc

/-- C9: for every table handed to the Fallback Structured Parser and every
row: SNP becomes the substring of the combined allele field before its first
separator; CHR and BP come from splitting the locus field at its separator;
when the BP substring has any non-digit character, BP is instead the first
maximal run of digits in that substring; BP is cast to an integer value and
CHR kept as a string; and a row survives into the parser's output exactly
when SNP, CHR, BP and PVALUE all parsed to a valid (non-missing) value —
failing rows are dropped, not repaired. -/
theorem C9_fallback_structured_parsing (df : DF) (r : Row) (hr : r ∈ df.rows) :
    ((parseCustomRow (anyNonDigitBp df) r).get "SNP" =
        match (r.get "riskAllele").asStr with
        | some ra => Cell.str (fieldBefore '-' ra)
        | none => Cell.na) ∧
    ((parseCustomRow (anyNonDigitBp df) r).get "CHR" =
        match (r.get "locations").asStr with
        | some loc => Cell.str (fieldBefore ':' loc)
        | none => Cell.na) ∧
    ((parseCustomRow (anyNonDigitBp df) r).get "BP" = toNumeric (bpRowDescr r)) ∧
    ((parseCustomRow (anyNonDigitBp df) r).get "PVALUE" = toNumeric (r.get "pValue")) ∧
    ((parseCustomRow (anyNonDigitBp df) r).get "BP" = Cell.na ∨
      ∃ n : ℕ, (parseCustomRow (anyNonDigitBp df) r).get "BP" = Cell.num (n : ℚ)) ∧
    (parseCustomRow (anyNonDigitBp df) r ∈ (parse_custom_gwas df).rows ↔
      ∀ c ∈ (["SNP", "CHR", "BP", "PVALUE"] : List String),
        (parseCustomRow (anyNonDigitBp df) r).get c ≠ Cell.na) := by
  refine ⟨?_, ?_, ?_, ?_, ?_, ?_⟩
  · rw [parseCustomRow_get_snp]
    rfl
  · rw [parseCustomRow_get_chr]
    rfl
  · rw [parseCustomRow_get_bp]
    exact bp_colwise_eq_rowwise df r hr
  · exact parseCustomRow_get_pvalue _ r
  · rw [parseCustomRow_get_bp, bp_colwise_eq_rowwise df r hr]
    exact toNumeric_bpRowDescr_nat r
  · exact mem_parse_custom df r hr

/-- A concrete raw table for the fallback parser: one row whose BP substring
carries a non-numeric build annotation. -/
def w9row : Row :=
  [("riskAllele", Cell.str "rs123-A"), ("locations", Cell.str "7:123_b37"),
   ("pValue", Cell.str "5e-8")]

/-- The one-row raw table around `w9row`. -/
def w9df : DF := ⟨["riskAllele", "locations", "pValue"], [w9row]⟩

/-- Witness for C9 on `w9df`: SNP is `rs123` (before the `-`), CHR is `7`,
BP is the digit run 123 extracted from `123_b37`, PVALUE parses from `5e-8`,
and the row is kept since all four parsed. -/
theorem C9_fallback_structured_parsing_witness :
    ((parseCustomRow (anyNonDigitBp w9df) w9row).get "SNP" = Cell.str "rs123") ∧
    ((parseCustomRow (anyNonDigitBp w9df) w9row).get "CHR" = Cell.str "7") ∧
    ((parseCustomRow (anyNonDigitBp w9df) w9row).get "BP" = toNumeric (bpRowDescr w9row)) ∧
    ((parseCustomRow (anyNonDigitBp w9df) w9row).get "PVALUE" =
      toNumeric (w9row.get "pValue")) ∧
    ((parseCustomRow (anyNonDigitBp w9df) w9row).get "BP" = Cell.na ∨
      ∃ n : ℕ, (parseCustomRow (anyNonDigitBp w9df) w9row).get "BP" = Cell.num (n : ℚ)) ∧
    (parseCustomRow (anyNonDigitBp w9df) w9row ∈ (parse_custom_gwas w9df).rows ↔
      ∀ c ∈ (["SNP", "CHR", "BP", "PVALUE"] : List String),
        (parseCustomRow (anyNonDigitBp w9df) w9row).get c ≠ Cell.na) :=
  C9_fallback_structured_parsing w9df w9row (List.mem_singleton.mpr rfl)

/-! ### Field Deriver (`infer_se_if_missing`) and `load_gwas` -/

/-- `infer_se_if_missing` of the source, parametrized by the model of the
external `scipy.stats.norm.ppf` on cells: when SE is absent but BETA and
PVALUE are present, set `SE = abs(BETA / ppf(PVALUE / 2))`, then coerce the
column through `pd.to_numeric(..., errors="coerce")`. -/
def infer_se_if_missing (ppf : Cell → Cell) (df : DF) : DF :=
  if "SE" ∉ df.cols ∧ "BETA" ∈ df.cols ∧ "PVALUE" ∈ df.cols then
    df.setCol "SE" (fun r =>
      toNumeric (Cell.cabs (Cell.cdiv (r.get "BETA") (ppf (Cell.half (r.get "PVALUE"))))))
  else df

/-- Idealized model of the external `scipy.stats.norm.ppf` on cells, exact at
the degenerate points the pipeline's edge cases hit: `ppf 0 = -inf`,
`ppf (1/2) = 0`, `ppf 1 = +inf`, NaN outside `[0, 1]` and on non-numeric
input, and a finite nonzero stand-in at the other points of `(0, 1)` (the
facts proved against this model depend only on the degenerate points). -/
def normPpf : Cell → Cell
  | Cell.num q =>
      if q < 0 then Cell.na
      else if q = 0 then Cell.ninf
      else if q = 1 / 2 then Cell.num 0
      else if q < 1 then Cell.num (q - 1 / 2)
      else if q = 1 then Cell.pinf
      else Cell.na
  | _ => Cell.na

/-- Renaming one column of a frame (`df.rename(columns={src: dst})`). -/
def DF.renameCol (df : DF) (src dst : String) : DF :=
  ⟨df.cols.map (fun c => if c = src then dst else c),
   df.rows.map (fun r => r.map (fun q => if q.1 = src then (dst, q.2) else q))⟩

/-- Header stripping on the frame (`df.columns = df.columns.str.strip()`). -/
def DF.stripCols (df : DF) : DF :=
  ⟨df.cols.map trimStr, df.rows.map (fun r => r.map (fun q => (trimStr q.1, q.2)))⟩

/-- The canonical-name renames `load_gwas` applies on the direct path. -/
def applyRename (mapping : List (String × String)) (df : DF) : DF :=
  mapping.foldl (fun acc e =>
    if e.1 ≠ e.2 ∧ e.2 ∈ acc.cols then acc.renameCol e.2 e.1 else acc) df

/-- Whether the Normalizer resolved all required canonical fields
(`all(k in mapping for k in ["SNP", "CHR", "BP", "PVALUE"])`). -/
def requiredResolved (mapping : List (String × String)) : Bool :=
  (["SNP", "CHR", "BP", "PVALUE"] : List String).all
    (fun k => (List.lookup k mapping).isSome)

/-- The three raw columns that enable the fallback parser. -/
def fallbackCols : List String := ["riskAllele", "locations", "pValue"]

/-- The resolution path `load_gwas` takes for a (stripped) header list:
direct normalizer mapping, fallback structured parsing, or fatal exit. -/
inductive LoadPath where
  | direct : LoadPath
  | fallback : LoadPath
  | fatal : LoadPath
deriving DecidableEq, Repr

/-- The branch selection of `load_gwas`. -/
def loadPath (cols : List String) : LoadPath :=
  if requiredResolved (auto_map_columns cols) then LoadPath.direct
  else if fallbackCols.all (fun c => cols.contains c) then LoadPath.fallback
  else LoadPath.fatal

/-- `load_gwas` of the source, after `pd.read_csv`: strip headers, auto-map;
rename to canonical names when all required fields resolved, otherwise fall
back to the structured parser when the raw triple is present, otherwise exit
fatally; finally infer SE when missing. -/
def load_gwas (ppf : Cell → Cell) (df : DF) : Except String DF :=
  let df := df.stripCols
  match loadPath df.cols with
  | LoadPath.direct =>
      Except.ok (infer_se_if_missing ppf (applyRename (auto_map_columns df.cols) df))
  | LoadPath.fallback =>
      Except.ok (infer_se_if_missing ppf (parse_custom_gwas df))
  | LoadPath.fatal => Except.error "Missing critical columns, no fallback possible"

/-! ### Idempotence of the fallback parser (for C6) -/

theorem filter_ne_cons (key c : String) (v : Cell) (l : List (String × Cell))
    (h : c ≠ key) :
    List.filter (fun q => q.1 ≠ key) ((c, v) :: l) =
      (c, v) :: List.filter (fun q => q.1 ≠ key) l := by
  rw [List.filter_cons_of_pos]
  exact decide_eq_true h

theorem filter_ne_cons_self (key : String) (v : Cell) (l : List (String × Cell)) :
    List.filter (fun q => q.1 ≠ key) ((key, v) :: l) =
      List.filter (fun q => q.1 ≠ key) l := by
  rw [List.filter_cons_of_neg]
  simp

theorem four_sets_form (r0 : Row) (s c b p : Cell) :
    (((r0.set "SNP" s).set "CHR" c).set "BP" b).set "PVALUE" p =
      ("PVALUE", p) :: ("BP", b) :: ("CHR", c) :: ("SNP", s) ::
        ((((r0.filter (fun q => q.1 ≠ "SNP")).filter
            (fun q => q.1 ≠ "CHR")).filter
            (fun q => q.1 ≠ "BP")).filter (fun q => q.1 ≠ "PVALUE")) := by
  unfold Row.set
  rw [filter_ne_cons _ _ _ _ (by decide), filter_ne_cons _ _ _ _ (by decide),
    filter_ne_cons _ _ _ _ (by decide), filter_ne_cons _ _ _ _ (by decide),
    filter_ne_cons _ _ _ _ (by decide), filter_ne_cons _ _ _ _ (by decide)]

theorem mem_four_filters (r0 : Row) (a : String × Cell)
    (ha : a ∈ (((r0.filter (fun q => q.1 ≠ "SNP")).filter
        (fun q => q.1 ≠ "CHR")).filter
        (fun q => q.1 ≠ "BP")).filter (fun q => q.1 ≠ "PVALUE")) :
    (a.1 ≠ "SNP" ∧ a.1 ≠ "CHR") ∧ a.1 ≠ "BP" ∧ a.1 ≠ "PVALUE" := by
  rcases List.mem_filter.mp ha with ⟨h3, hP⟩
  rcases List.mem_filter.mp h3 with ⟨h2, hB⟩
  rcases List.mem_filter.mp h2 with ⟨h1, hC⟩
  rcases List.mem_filter.mp h1 with ⟨_, hS⟩
  exact ⟨⟨by simpa using hS, by simpa using hC⟩, by simpa using hB, by simpa using hP⟩

theorem refilter_four (r0 : Row) (s c b p : Cell) :
    List.filter (fun q => q.1 ≠ "PVALUE")
      (List.filter (fun q => q.1 ≠ "BP")
        (List.filter (fun q => q.1 ≠ "CHR")
          (List.filter (fun q => q.1 ≠ "SNP")
            (("PVALUE", p) :: ("BP", b) :: ("CHR", c) :: ("SNP", s) ::
              ((((r0.filter (fun q => q.1 ≠ "SNP")).filter
                  (fun q => q.1 ≠ "CHR")).filter
                  (fun q => q.1 ≠ "BP")).filter (fun q => q.1 ≠ "PVALUE")))))) =
      (((r0.filter (fun q => q.1 ≠ "SNP")).filter
          (fun q => q.1 ≠ "CHR")).filter
          (fun q => q.1 ≠ "BP")).filter (fun q => q.1 ≠ "PVALUE") := by
  have hmem := mem_four_filters r0
  have hfS : ((((r0.filter (fun q => q.1 ≠ "SNP")).filter
      (fun q => q.1 ≠ "CHR")).filter
      (fun q => q.1 ≠ "BP")).filter (fun q => q.1 ≠ "PVALUE")).filter
        (fun q => q.1 ≠ "SNP") =
      (((r0.filter (fun q => q.1 ≠ "SNP")).filter
        (fun q => q.1 ≠ "CHR")).filter
        (fun q => q.1 ≠ "BP")).filter (fun q => q.1 ≠ "PVALUE") :=
    List.filter_eq_self.mpr (fun a ha => by simpa using (hmem a ha).1.1)
  have hfC : ((((r0.filter (fun q => q.1 ≠ "SNP")).filter
      (fun q => q.1 ≠ "CHR")).filter
      (fun q => q.1 ≠ "BP")).filter (fun q => q.1 ≠ "PVALUE")).filter
        (fun q => q.1 ≠ "CHR") =
      (((r0.filter (fun q => q.1 ≠ "SNP")).filter
        (fun q => q.1 ≠ "CHR")).filter
        (fun q => q.1 ≠ "BP")).filter (fun q => q.1 ≠ "PVALUE") :=
    List.filter_eq_self.mpr (fun a ha => by simpa using (hmem a ha).1.2)
  have hfB : ((((r0.filter (fun q => q.1 ≠ "SNP")).filter
      (fun q => q.1 ≠ "CHR")).filter
      (fun q => q.1 ≠ "BP")).filter (fun q => q.1 ≠ "PVALUE")).filter
        (fun q => q.1 ≠ "BP") =
      (((r0.filter (fun q => q.1 ≠ "SNP")).filter
        (fun q => q.1 ≠ "CHR")).filter
        (fun q => q.1 ≠ "BP")).filter (fun q => q.1 ≠ "PVALUE") :=
    List.filter_eq_self.mpr (fun a ha => by simpa using (hmem a ha).2.1)
  have hfP : ((((r0.filter (fun q => q.1 ≠ "SNP")).filter
      (fun q => q.1 ≠ "CHR")).filter
      (fun q => q.1 ≠ "BP")).filter (fun q => q.1 ≠ "PVALUE")).filter
        (fun q => q.1 ≠ "PVALUE") =
      (((r0.filter (fun q => q.1 ≠ "SNP")).filter
        (fun q => q.1 ≠ "CHR")).filter
        (fun q => q.1 ≠ "BP")).filter (fun q => q.1 ≠ "PVALUE") :=
    List.filter_eq_self.mpr (fun a ha => by simpa using (hmem a ha).2.2)
  rw [filter_ne_cons _ _ _ _ (by decide), filter_ne_cons _ _ _ _ (by decide),
    filter_ne_cons _ _ _ _ (by decide), filter_ne_cons_self,
    filter_ne_cons _ _ _ _ (by decide), filter_ne_cons _ _ _ _ (by decide),
    filter_ne_cons_self,
    filter_ne_cons _ _ _ _ (by decide), filter_ne_cons_self,
    filter_ne_cons_self,
    hfS, hfC, hfB, hfP]

theorem set_four_twice (r0 : Row) (s c b p : Cell) :
    (((((((r0.set "SNP" s).set "CHR" c).set "BP" b).set "PVALUE" p).set
        "SNP" s).set "CHR" c).set "BP" b).set "PVALUE" p =
      (((r0.set "SNP" s).set "CHR" c).set "BP" b).set "PVALUE" p := by
  rw [four_sets_form r0 s c b p, four_sets_form
    (("PVALUE", p) :: ("BP", b) :: ("CHR", c) :: ("SNP", s) ::
      ((((r0.filter (fun q => q.1 ≠ "SNP")).filter
          (fun q => q.1 ≠ "CHR")).filter
          (fun q => q.1 ≠ "BP")).filter (fun q => q.1 ≠ "PVALUE"))) s c b p]
  rw [refilter_four]

theorem DF.ext_eq (a b : DF) (h1 : a.cols = b.cols) (h2 : a.rows = b.rows) : a = b := by
  cases a
  cases b
  cases h1
  cases h2
  rfl

theorem snpOfRaw_parseCustomRow (flag : Bool) (r : Row) :
    snpOfRaw (parseCustomRow flag r) = snpOfRaw r := by
  unfold snpOfRaw
  rw [parseCustomRow_get_raw flag r "riskAllele" (by decide) (by decide) (by decide) (by decide)]

theorem chrOfRaw_parseCustomRow (flag : Bool) (r : Row) :
    chrOfRaw (parseCustomRow flag r) = chrOfRaw r := by
  unfold chrOfRaw
  rw [parseCustomRow_get_raw flag r "locations" (by decide) (by decide) (by decide) (by decide)]

theorem rawBpOf_parseCustomRow (flag : Bool) (r : Row) :
    rawBpOf (parseCustomRow flag r) = rawBpOf r := by
  unfold rawBpOf
  rw [parseCustomRow_get_raw flag r "locations" (by decide) (by decide) (by decide) (by decide)]

theorem bpRowDescr_parseCustomRow (flag : Bool) (r : Row) :
    bpRowDescr (parseCustomRow flag r) = bpRowDescr r := by
  unfold bpRowDescr
  rw [rawBpOf_parseCustomRow]

theorem parseCustomRow_def (flag : Bool) (r : Row) :
    parseCustomRow flag r =
      (((r.set "SNP" (snpOfRaw r)).set "CHR" (chrOfRaw r)).set "BP"
          (toNumeric (bpStrCell flag r))).set "PVALUE" (toNumeric (r.get "pValue")) := rfl

theorem parse_custom_gwas_rows (df : DF) :
    (parse_custom_gwas df).rows =
      (df.rows.map (parseCustomRow (anyNonDigitBp df))).filter
        (fun r => (["SNP", "CHR", "BP", "PVALUE"] : List String).all
          (fun c => !(r.get c == Cell.na))) := rfl

theorem parse_custom_gwas_cols (df : DF) :
    (parse_custom_gwas df).cols =
      addColIfNew (addColIfNew (addColIfNew (addColIfNew df.cols "SNP") "CHR") "BP")
        "PVALUE" := rfl

theorem mem_addColIfNew_self (cols : List String) (c : String) :
    c ∈ addColIfNew cols c := by
  unfold addColIfNew
  by_cases h : c ∈ cols
  · rw [if_pos h]; exact h
  · rw [if_neg h]; simp

theorem mem_addColIfNew_mono (cols : List String) (c' c : String) (h : c ∈ cols) :
    c ∈ addColIfNew cols c' := by
  unfold addColIfNew
  by_cases h' : c' ∈ cols
  · rw [if_pos h']; exact h
  · rw [if_neg h']
    exact List.mem_append_left _ h

theorem addColIfNew_of_mem (cols : List String) (c : String) (h : c ∈ cols) :
    addColIfNew cols c = cols := if_pos h

theorem parseCustomRow_idem (df : DF) (r : Row) (hr : r ∈ df.rows)
    (hmem : parseCustomRow (anyNonDigitBp df) r ∈ (parse_custom_gwas df).rows) :
    parseCustomRow (anyNonDigitBp (parse_custom_gwas df))
        (parseCustomRow (anyNonDigitBp df) r) =
      parseCustomRow (anyNonDigitBp df) r := by
  have hbp : toNumeric (bpStrCell (anyNonDigitBp (parse_custom_gwas df))
      (parseCustomRow (anyNonDigitBp df) r)) =
      toNumeric (bpStrCell (anyNonDigitBp df) r) := by
    rw [bp_colwise_eq_rowwise (parse_custom_gwas df) _ hmem,
      bpRowDescr_parseCustomRow, ← bp_colwise_eq_rowwise df r hr]
  rw [parseCustomRow_def (anyNonDigitBp (parse_custom_gwas df))
    (parseCustomRow (anyNonDigitBp df) r)]
  rw [snpOfRaw_parseCustomRow, chrOfRaw_parseCustomRow, hbp,
    parseCustomRow_get_raw (anyNonDigitBp df) r "pValue"
      (by decide) (by decide) (by decide) (by decide)]
  rw [parseCustomRow_def (anyNonDigitBp df) r]
  exact set_four_twice r (snpOfRaw r) (chrOfRaw r)
    (toNumeric (bpStrCell (anyNonDigitBp df) r)) (toNumeric (r.get "pValue"))

theorem parse_custom_gwas_idem (df : DF) :
    parse_custom_gwas (parse_custom_gwas df) = parse_custom_gwas df := by
  have hSNP : "SNP" ∈ (parse_custom_gwas df).cols := by
    rw [parse_custom_gwas_cols]
    exact mem_addColIfNew_mono _ _ _ (mem_addColIfNew_mono _ _ _
      (mem_addColIfNew_mono _ _ _ (mem_addColIfNew_self _ _)))
  have hCHR : "CHR" ∈ (parse_custom_gwas df).cols := by
    rw [parse_custom_gwas_cols]
    exact mem_addColIfNew_mono _ _ _ (mem_addColIfNew_mono _ _ _
      (mem_addColIfNew_self _ _))
  have hBP : "BP" ∈ (parse_custom_gwas df).cols := by
    rw [parse_custom_gwas_cols]
    exact mem_addColIfNew_mono _ _ _ (mem_addColIfNew_self _ _)
  have hPVAL : "PVALUE" ∈ (parse_custom_gwas df).cols := by
    rw [parse_custom_gwas_cols]
    exact mem_addColIfNew_self _ _
  apply DF.ext_eq
  · rw [parse_custom_gwas_cols (parse_custom_gwas df)]
    rw [addColIfNew_of_mem _ _ hSNP, addColIfNew_of_mem _ _ hCHR,
      addColIfNew_of_mem _ _ hBP, addColIfNew_of_mem _ _ hPVAL]
  · rw [parse_custom_gwas_rows (parse_custom_gwas df)]
    have hid : ∀ x ∈ (parse_custom_gwas df).rows,
        parseCustomRow (anyNonDigitBp (parse_custom_gwas df)) x = id x := by
      intro x hx
      have hx' := hx
      rw [parse_custom_gwas_rows df] at hx'
      rcases List.mem_filter.mp hx' with ⟨hxm, _⟩
      rcases List.mem_map.mp hxm with ⟨r, hr, rfl⟩
      exact parseCustomRow_idem df r hr hx
    rw [List.map_congr_left hid, List.map_id]
    apply List.filter_eq_self.mpr
    intro a ha
    rw [parse_custom_gwas_rows df] at ha
    exact (List.mem_filter.mp ha).2

/-- Counterexample to C6: on the fallback parser's own output (here for the
concrete table `w9df`) the Normalizer does not resolve PVALUE — its alias
list has no alias equal to a literal `pvalue` header — so the loader takes
the fallback path again and the parser is re-invoked; moreover a table
carrying exactly the canonical columns SNP, CHR, BP, PVALUE resolves to the
fatal path and the load exits with an error. -/
theorem C6_counterexample :
    List.lookup "PVALUE" (auto_map_columns (parse_custom_gwas w9df).cols) = none ∧
    loadPath (parse_custom_gwas w9df).cols = LoadPath.fallback ∧
    loadPath ["SNP", "CHR", "BP", "PVALUE"] = LoadPath.fatal ∧
    load_gwas normPpf ⟨["SNP", "CHR", "BP", "PVALUE"], []⟩ =
      Except.error "Missing critical columns, no fallback possible" :=
  ⟨by decide, by decide, by decide, rfl⟩

/-- C6 amended: the Normalizer cannot resolve PVALUE on the fallback
parser's own output (no alias matches the literal PVALUE header), so loading
that output invokes the fallback parser again rather than resolving directly;
the re-invocation is a value-level no-op because `parse_custom_gwas` is
idempotent. -/
theorem C6_amended_fallback_reinvoked (df : DF)
    (hraw : fallbackCols.all (fun c => (parse_custom_gwas df).cols.contains c) = true)
    (hnoalias : ∀ c ∈ (parse_custom_gwas df).cols,
      lowerStr c ∉ (["pval", "p_value", "p"] : List String)) :
    parse_custom_gwas (parse_custom_gwas df) = parse_custom_gwas df ∧
    loadPath (parse_custom_gwas df).cols = LoadPath.fallback := by
  refine ⟨parse_custom_gwas_idem df, ?_⟩
  have h1 : auto_map_columns (parse_custom_gwas df).cols =
      mapColumns AUTO_COLUMN_MAP (parse_custom_gwas df).cols := rfl
  have hpv : List.lookup "PVALUE" (auto_map_columns (parse_custom_gwas df).cols) = none := by
    rw [h1, lookup_mapColumns AUTO_COLUMN_MAP _ "PVALUE" ["pval", "p_value", "p"]
      auto_column_map_keys_nodup (by decide), firstAliasMatch_eq]
    have hfind : List.find?
        (fun a => (parse_custom_gwas df).cols.any (fun c => lowerStr c == a))
        ["pval", "p_value", "p"] = none := by
      apply List.find?_eq_none.mpr
      intro a ha hany
      rcases List.any_eq_true.mp hany with ⟨c, hc, hcl⟩
      rw [beq_iff_eq] at hcl
      exact hnoalias c hc (hcl ▸ ha)
    rw [hfind]
    rfl
  have hreq : requiredResolved (auto_map_columns (parse_custom_gwas df).cols) = false := by
    cases hall : requiredResolved (auto_map_columns (parse_custom_gwas df).cols) with
    | false => rfl
    | true =>
        exfalso
        unfold requiredResolved at hall
        have hps := List.all_eq_true.mp hall "PVALUE" (by decide)
        rw [hpv] at hps
        simp at hps
  unfold loadPath
  rw [hreq, hraw]
  rfl

/-- Witness for the amended C6 at the concrete raw table `w9df`: its parsed
output re-parses to itself and re-loading it takes the fallback path. -/
theorem C6_amended_fallback_reinvoked_witness :
    parse_custom_gwas (parse_custom_gwas w9df) = parse_custom_gwas w9df ∧
    loadPath (parse_custom_gwas w9df).cols = LoadPath.fallback :=
  C6_amended_fallback_reinvoked w9df (by decide) (by decide)

/-! ### Claim C7: degenerate rows of the SE derivation -/

theorem dropna_get_ne_na (df : DF) (c : String) (hc : c ∈ df.cols) :
    ∀ r ∈ df.dropna.rows, r.get c ≠ Cell.na := by
  intro r hr hna
  rcases List.mem_filter.mp hr with ⟨_, hkeep⟩
  unfold DF.rowHasNa at hkeep
  have hany : df.cols.any (fun c => r.get c = Cell.na) = true :=
    List.any_eq_true.mpr ⟨c, hc, by simp [hna]⟩
  rw [hany] at hkeep
  cases hkeep

/-- First degenerate row: PVALUE = 0. -/
def w7r1 : Row :=
  [("SNP", Cell.str "rs1"), ("BETA", Cell.num 1), ("PVALUE", Cell.num 0)]

/-- Second degenerate row: PVALUE = 1 with nonzero BETA. -/
def w7r2 : Row :=
  [("SNP", Cell.str "rs2"), ("BETA", Cell.num 1), ("PVALUE", Cell.num 1)]

/-- A table without SE but with BETA and PVALUE, holding the two degenerate
p-values 0 and 1. -/
def w7df : DF := ⟨["SNP", "BETA", "PVALUE"], [w7r1, w7r2]⟩

theorem w7_derived_row1 :
    toNumeric (Cell.cabs (Cell.cdiv (w7r1.get "BETA")
      (normPpf (Cell.half (w7r1.get "PVALUE"))))) = Cell.num 0 := by
  have h1 : w7r1.get "BETA" = Cell.num 1 := rfl
  have h2 : w7r1.get "PVALUE" = Cell.num 0 := rfl
  have h3 : Cell.half (Cell.num 0) = Cell.num 0 := by
    unfold Cell.half
    norm_num
  have h4 : normPpf (Cell.num 0) = Cell.ninf := by
    unfold normPpf
    norm_num
  rw [h1, h2, h3, h4]
  have h5 : Cell.cdiv (Cell.num 1) Cell.ninf = Cell.num 0 := rfl
  rw [h5]
  have h6 : Cell.cabs (Cell.num 0) = Cell.num 0 := by
    unfold Cell.cabs
    norm_num
  rw [h6]
  rfl

theorem w7_derived_row2 :
    toNumeric (Cell.cabs (Cell.cdiv (w7r2.get "BETA")
      (normPpf (Cell.half (w7r2.get "PVALUE"))))) = Cell.pinf := by
  have h1 : w7r2.get "BETA" = Cell.num 1 := rfl
  have h2 : w7r2.get "PVALUE" = Cell.num 1 := rfl
  have h3 : Cell.half (Cell.num 1) = Cell.num (1 / 2) := rfl
  have h4 : normPpf (Cell.num (1 / 2)) = Cell.num 0 := by
    unfold normPpf
    norm_num
  rw [h1, h2, h3, h4]
  have h5 : Cell.cdiv (Cell.num 1) (Cell.num 0) = Cell.pinf := by
    unfold Cell.cdiv
    norm_num
  rw [h5]
  rfl

theorem w7_rows_explicit :
    (infer_se_if_missing normPpf w7df).rows =
      [[("SE", Cell.num 0), ("SNP", Cell.str "rs1"), ("BETA", Cell.num 1),
        ("PVALUE", Cell.num 0)],
       [("SE", Cell.pinf), ("SNP", Cell.str "rs2"), ("BETA", Cell.num 1),
        ("PVALUE", Cell.num 1)]] := by
  have hrows : (infer_se_if_missing normPpf w7df).rows =
      w7df.rows.map (fun r => r.set "SE"
        (toNumeric (Cell.cabs (Cell.cdiv (r.get "BETA")
          (normPpf (Cell.half (r.get "PVALUE"))))))) := by
    unfold infer_se_if_missing
    rw [if_pos (by decide)]
    rfl
  rw [hrows]
  show [w7r1.set "SE" _, w7r2.set "SE" _] = _
  rw [w7_derived_row1, w7_derived_row2]
  decide

/-- Counterexample to C7: under IEEE semantics the degenerate rows do NOT
end with a missing SE removed by dropna.  With PVALUE = 0 the derivation is
`|1 / ppf(0)| = |1 / -inf| = 0`, a finite non-missing SE; with PVALUE = 1 and
BETA = 1 it is `|1 / ppf(1/2)| = |1 / 0| = +inf`, non-missing as well; dropna
keeps both rows. -/
theorem C7_counterexample :
    ((infer_se_if_missing normPpf w7df).rows.map (fun r => r.get "SE")) =
      [Cell.num 0, Cell.pinf] ∧
    ((infer_se_if_missing normPpf w7df).dropna).rows.length = 2 ∧
    "SE" ∈ (infer_se_if_missing normPpf w7df).cols := by
  have hc : (infer_se_if_missing normPpf w7df).cols =
      ["SNP", "BETA", "PVALUE", "SE"] := by
    unfold infer_se_if_missing
    rw [if_pos (by decide)]
    decide
  have hdf : infer_se_if_missing normPpf w7df =
      ⟨["SNP", "BETA", "PVALUE", "SE"],
       [[("SE", Cell.num 0), ("SNP", Cell.str "rs1"), ("BETA", Cell.num 1),
         ("PVALUE", Cell.num 0)],
        [("SE", Cell.pinf), ("SNP", Cell.str "rs2"), ("BETA", Cell.num 1),
         ("PVALUE", Cell.num 1)]]⟩ :=
    DF.ext_eq _ _ hc w7_rows_explicit
  refine ⟨?_, ?_, ?_⟩
  · rw [w7_rows_explicit]
    decide
  · rw [hdf]
    decide
  · rw [hc]
    decide

/-- C7 amended: when SE is absent but BETA and PVALUE are present, every row
gets `SE = |BETA / ppf(PVALUE/2)|`; a row whose derivation is undefined
(NaN — e.g. BETA = 0 with PVALUE = 1) gets a missing SE and is removed by
downstream dropna; but the degenerate p-values do not give missing values:
PVALUE = 0 yields SE = 0 and PVALUE = 1 with BETA ≠ 0 yields SE = +inf, both
retained by dropna; the derivation never raises a fatal error. -/
theorem C7_amended_field_deriver (ppf : Cell → Cell) (df : DF)
    (hse : "SE" ∉ df.cols) (hbeta : "BETA" ∈ df.cols) (hpv : "PVALUE" ∈ df.cols)
    (hp0 : ppf (Cell.num 0) = Cell.ninf)
    (hphalf : ppf (Cell.num (1 / 2)) = Cell.num 0) :
    ((infer_se_if_missing ppf df).rows =
      df.rows.map (fun r => r.set "SE"
        (toNumeric (Cell.cabs (Cell.cdiv (r.get "BETA")
          (ppf (Cell.half (r.get "PVALUE")))))))) ∧
    ("SE" ∈ (infer_se_if_missing ppf df).cols) ∧
    (∀ r : Row, ∀ b : ℚ, r.get "BETA" = Cell.num b → r.get "PVALUE" = Cell.num 0 →
      toNumeric (Cell.cabs (Cell.cdiv (r.get "BETA")
        (ppf (Cell.half (r.get "PVALUE"))))) = Cell.num 0) ∧
    (∀ r : Row, ∀ b : ℚ, r.get "BETA" = Cell.num b → b ≠ 0 →
      r.get "PVALUE" = Cell.num 1 →
      toNumeric (Cell.cabs (Cell.cdiv (r.get "BETA")
        (ppf (Cell.half (r.get "PVALUE"))))) = Cell.pinf) ∧
    (∀ r : Row, r.get "BETA" = Cell.num 0 → r.get "PVALUE" = Cell.num 1 →
      toNumeric (Cell.cabs (Cell.cdiv (r.get "BETA")
        (ppf (Cell.half (r.get "PVALUE"))))) = Cell.na) ∧
    (∀ r' ∈ ((infer_se_if_missing ppf df).dropna).rows, r'.get "SE" ≠ Cell.na) := by
  have hcond : "SE" ∉ df.cols ∧ "BETA" ∈ df.cols ∧ "PVALUE" ∈ df.cols :=
    ⟨hse, hbeta, hpv⟩
  have hrows : (infer_se_if_missing ppf df).rows =
      df.rows.map (fun r => r.set "SE"
        (toNumeric (Cell.cabs (Cell.cdiv (r.get "BETA")
          (ppf (Cell.half (r.get "PVALUE"))))))) := by
    unfold infer_se_if_missing
    rw [if_pos hcond]
    rfl
  have hsecol : "SE" ∈ (infer_se_if_missing ppf df).cols := by
    unfold infer_se_if_missing
    rw [if_pos hcond]
    unfold DF.setCol
    by_cases h : "SE" ∈ df.cols
    · dsimp only
      rw [if_pos h]
      exact h
    · dsimp only
      rw [if_neg h]
      simp
  have hhalf0 : Cell.half (Cell.num 0) = Cell.num 0 := by
    unfold Cell.half
    norm_num
  have hhalf1 : Cell.half (Cell.num 1) = Cell.num (1 / 2) := rfl
  refine ⟨hrows, hsecol, ?_, ?_, ?_, ?_⟩
  · intro r b hb hp
    rw [hb, hp, hhalf0, hp0]
    rfl
  · intro r b hb hbne hp
    rw [hb, hp, hhalf1, hphalf]
    unfold Cell.cdiv
    dsimp only
    rw [if_pos rfl, if_neg hbne]
    rcases lt_or_gt_of_ne hbne with hlt | hgt
    · rw [if_neg (not_lt.mpr (le_of_lt hlt))]
      rfl
    · rw [if_pos hgt]
      rfl
  · intro r hb hp
    rw [hb, hp, hhalf1, hphalf]
    rfl
  · exact dropna_get_ne_na _ "SE" hsecol

/-- Witness for the amended C7 at `w7df` with the `normPpf` model. -/
theorem C7_amended_field_deriver_witness :
    ((infer_se_if_missing normPpf w7df).rows =
      w7df.rows.map (fun r => r.set "SE"
        (toNumeric (Cell.cabs (Cell.cdiv (r.get "BETA")
          (normPpf (Cell.half (r.get "PVALUE")))))))) ∧
    ("SE" ∈ (infer_se_if_missing normPpf w7df).cols) ∧
    (∀ r : Row, ∀ b : ℚ, r.get "BETA" = Cell.num b → r.get "PVALUE" = Cell.num 0 →
      toNumeric (Cell.cabs (Cell.cdiv (r.get "BETA")
        (normPpf (Cell.half (r.get "PVALUE"))))) = Cell.num 0) ∧
    (∀ r : Row, ∀ b : ℚ, r.get "BETA" = Cell.num b → b ≠ 0 →
      r.get "PVALUE" = Cell.num 1 →
      toNumeric (Cell.cabs (Cell.cdiv (r.get "BETA")
        (normPpf (Cell.half (r.get "PVALUE"))))) = Cell.pinf) ∧
    (∀ r : Row, r.get "BETA" = Cell.num 0 → r.get "PVALUE" = Cell.num 1 →
      toNumeric (Cell.cabs (Cell.cdiv (r.get "BETA")
        (normPpf (Cell.half (r.get "PVALUE"))))) = Cell.na) ∧
    (∀ r' ∈ ((infer_se_if_missing normPpf w7df).dropna).rows,
      r'.get "SE" ≠ Cell.na) :=
  C7_amended_field_deriver normPpf w7df (by decide) (by decide) (by decide)
    (by unfold normPpf; norm_num) (by unfold normPpf; norm_num)

/-! ### Main pipeline (`main`, lines 165-199 of the script) -/

/-- The identifiers shared by both tables
(`set(exposure["SNP"]).intersection(set(outcome["SNP"]))`), as the exposure
SNP values also present on the outcome side. -/
def commonSNPs (e o : DF) : List Cell :=
  (e.rows.map (fun r => r.get "SNP")).filter
    (fun v => o.rows.any (fun ro => ro.get "SNP" == v))

/-- `df[df["SNP"].isin(vals)]`. -/
def filterIsin (df : DF) (vals : List Cell) : DF :=
  df.filterRows (fun r => vals.contains (r.get "SNP"))

/-- `is_snp_allele` of the source on one cell. -/
def is_snp_allele (a : Cell) : Bool :=
  match a with
  | Cell.str s => (["A", "T", "C", "G"] : List String).contains s
  | _ => false

/-- The common-SNP intersection and dropna stage (lines 165-169). -/
def commonStage (e o : DF) : DF × DF :=
  ((filterIsin e (commonSNPs e o)).dropna, (filterIsin o (commonSNPs e o)).dropna)

/-- The INDEL/allele stage (lines 171-177): the skip decision tests only the
exposure's columns; indexing the outcome at a missing A1/A2 raises an
uncaught KeyError, modelled as `Except.error`. -/
def alleleFilterRows (df : DF) : DF :=
  df.filterRows (fun r => is_snp_allele (r.get "A1") && is_snp_allele (r.get "A2"))

def alleleStage (e o : DF) : Except String (DF × DF) :=
  if "A1" ∈ e.cols ∧ "A2" ∈ e.cols then
    if "A1" ∈ o.cols then
      if "A2" ∈ o.cols then
        Except.ok (alleleFilterRows e, alleleFilterRows o)
      else Except.error "KeyError: A2"
    else Except.error "KeyError: A1"
  else Except.ok (e, o)

/-- `calculate_f_statistics` (lines 144-150).  The Boolean records whether
the warning path was taken (no SE column: sentinel 9999 and no real
scoring); squaring a BETA column the frame lacks raises KeyError. -/
def calculate_f_statistics (df : DF) : Except String (DF × Bool) :=
  if "SE" ∈ df.cols then
    if "BETA" ∈ df.cols then
      Except.ok (df.setCol "F_stat" (fun r =>
        Cell.cdiv (Cell.sq (r.get "BETA")) (Cell.sq (r.get "SE"))), false)
    else Except.error "KeyError: BETA"
  else Except.ok (df.setCol "F_stat" (fun _ => Cell.num 9999), true)

/-- The weak-instrument removal (line 185): keep rows with `F_stat >= 10`. -/
def fstatFilter (df : DF) : DF :=
  df.filterRows (fun r => Cell.ge (r.get "F_stat") 10)

/-- The logged weak-SNP identifiers (line 182): rows with `F_stat < 10`. -/
def weakSNPs (df : DF) : List Cell :=
  (df.rows.filter (fun r => Cell.lt (r.get "F_stat") 10)).map (fun r => r.get "SNP")

/-- Line 186: re-filter the outcome to the surviving exposure identifiers. -/
def outcomeRefilter (e o : DF) : DF :=
  o.filterRows (fun r => (e.rows.map (fun re => re.get "SNP")).contains (r.get "SNP"))

/-- The suffix rule of `pd.merge`: a non-key column shared with the other
table gets the suffix. -/
def suffixName (c : String) (other : List String) (suf : String) : String :=
  if c ∈ other then c ++ suf else c

/-- One merged row: the key once, then the exposure-side and outcome-side
columns with `_exp`/`_out` suffixes on name collisions. -/
def combineRow (key : String) (ecols ocols : List String) (re ro : Row) : Row :=
  (key, re.get key) ::
    ((ecols.filter (fun c => c ≠ key)).map
      (fun c => (suffixName c (ocols.filter (fun c' => c' ≠ key)) "_exp", re.get c)) ++
     (ocols.filter (fun c => c ≠ key)).map
      (fun c => (suffixName c (ecols.filter (fun c' => c' ≠ key)) "_out", ro.get c)))

/-- Inner join on the key
(`pd.merge(exposure, outcome, on="SNP", suffixes=("_exp", "_out"))`). -/
def mergeOn (key : String) (e o : DF) : DF :=
  ⟨key :: ((e.cols.filter (fun c => c ≠ key)).map
      (fun c => suffixName c (o.cols.filter (fun c' => c' ≠ key)) "_exp") ++
    (o.cols.filter (fun c => c ≠ key)).map
      (fun c => suffixName c (e.cols.filter (fun c' => c' ≠ key)) "_out")),
   e.rows.flatMap (fun re =>
     (o.rows.filter (fun ro => ro.get key == re.get key)).map
       (combineRow key e.cols o.cols re))⟩

/-- A rename guarded by column presence (`if c in merged.columns: rename`). -/
def renameOptCol (df : DF) (src dst : String) : DF :=
  if src ∈ df.cols then df.renameCol src dst else df

/-- The post-merge normalization of alternate frequency-column names
(lines 193-196). -/
def renameEAF (df : DF) : DF :=
  renameOptCol (renameOptCol df "riskFrequency_exp" "EAF_exp")
    "riskFrequency_out" "EAF_out"

/-- The post-load pipeline of `main` (lines 165-199): common-SNP filter with
dropna, allele stage, F-statistic scoring and weak filter, outcome
re-filter, merge, frequency-column rename.  `Except.ok` corresponds to
`merged.to_csv` being reached: the output file is written and the process
exits 0; there is no emptiness check on the merge. -/
def harmonise (e o : DF) : Except String DF :=
  if "SNP" ∈ e.cols then
    if "SNP" ∈ o.cols then
      match alleleStage (commonStage e o).1 (commonStage e o).2 with
      | Except.error msg => Except.error msg
      | Except.ok (e2, o2) =>
          match calculate_f_statistics e2 with
          | Except.error msg => Except.error msg
          | Except.ok (e3, _) =>
              Except.ok (renameEAF (mergeOn "SNP" (fstatFilter e3)
                (outcomeRefilter (fstatFilter e3) o2)))
    else Except.error "KeyError: SNP (outcome)"
  else Except.error "KeyError: SNP (exposure)"

theorem alleleStage_cols (e o e' o' : DF) (h : alleleStage e o = Except.ok (e', o')) :
    e'.cols = e.cols ∧ o'.cols = o.cols := by
  unfold alleleStage at h
  by_cases h1 : "A1" ∈ e.cols ∧ "A2" ∈ e.cols
  · rw [if_pos h1] at h
    by_cases h2 : "A1" ∈ o.cols
    · rw [if_pos h2] at h
      by_cases h3 : "A2" ∈ o.cols
      · rw [if_pos h3] at h
        injection h with h4
        injection h4 with h5 h6
        rw [← h5, ← h6]
        exact ⟨rfl, rfl⟩
      · rw [if_neg h3] at h
        cases h
    · rw [if_neg h2] at h
      cases h
  · rw [if_neg h1] at h
    injection h with h4
    injection h4 with h5 h6
    rw [← h5, ← h6]
    exact ⟨rfl, rfl⟩

theorem harmonise_eq_of_stages (e o e2 o2 e3 : DF) (wf : Bool)
    (hSNPe : "SNP" ∈ e.cols) (hSNPo : "SNP" ∈ o.cols)
    (hallele : alleleStage (commonStage e o).1 (commonStage e o).2 =
      Except.ok (e2, o2))
    (hcalc : calculate_f_statistics e2 = Except.ok (e3, wf)) :
    harmonise e o = Except.ok (renameEAF (mergeOn "SNP" (fstatFilter e3)
      (outcomeRefilter (fstatFilter e3) o2))) := by
  unfold harmonise
  rw [if_pos hSNPe, if_pos hSNPo, hallele]
  dsimp only
  rw [hcalc]

/-- C10: the INDEL-filter decision is a function of the exposure table's
columns only.  When the exposure has A1 and A2 but the outcome lacks one,
the stage raises an uncaught KeyError (hard failure, not a skip), and with
SNP columns present the whole run fails; when the exposure lacks A1 or A2,
the stage skips BOTH tables unchanged — the outcome is never allele-filtered
even if it has valid A1/A2 columns; when all four columns are present, both
tables are filtered. -/
theorem C10_allele_decision_exposure_only (e o : DF) :
    (("A1" ∈ e.cols ∧ "A2" ∈ e.cols) → ("A1" ∉ o.cols ∨ "A2" ∉ o.cols) →
      (∃ msg, alleleStage e o = Except.error msg)) ∧
    (("A1" ∈ e.cols ∧ "A2" ∈ e.cols) → "SNP" ∈ e.cols → "SNP" ∈ o.cols →
      ("A1" ∉ o.cols ∨ "A2" ∉ o.cols) →
      (∃ msg, harmonise e o = Except.error msg)) ∧
    (¬ ("A1" ∈ e.cols ∧ "A2" ∈ e.cols) → alleleStage e o = Except.ok (e, o)) ∧
    (("A1" ∈ e.cols ∧ "A2" ∈ e.cols) → "A1" ∈ o.cols → "A2" ∈ o.cols →
      alleleStage e o = Except.ok (alleleFilterRows e, alleleFilterRows o)) := by
  refine ⟨?_, ?_, ?_, ?_⟩
  · intro h1 h2
    unfold alleleStage
    rw [if_pos h1]
    rcases h2 with h2 | h2
    · rw [if_neg h2]
      exact ⟨_, rfl⟩
    · by_cases hA1 : "A1" ∈ o.cols
      · rw [if_pos hA1, if_neg h2]
        exact ⟨_, rfl⟩
      · rw [if_neg hA1]
        exact ⟨_, rfl⟩
  · intro h1 hSNPe hSNPo h2
    have h1' : "A1" ∈ (commonStage e o).1.cols ∧ "A2" ∈ (commonStage e o).1.cols := h1
    have h2' : "A1" ∉ (commonStage e o).2.cols ∨ "A2" ∉ (commonStage e o).2.cols := h2
    unfold harmonise
    rw [if_pos hSNPe, if_pos hSNPo]
    unfold alleleStage
    rw [if_pos h1']
    rcases h2' with h2' | h2'
    · rw [if_neg h2']
      exact ⟨_, rfl⟩
    · by_cases hA1 : "A1" ∈ (commonStage e o).2.cols
      · rw [if_pos hA1, if_neg h2']
        exact ⟨_, rfl⟩
      · rw [if_neg hA1]
        exact ⟨_, rfl⟩
  · intro h1
    unfold alleleStage
    rw [if_neg h1]
  · intro h1 h2 h3
    unfold alleleStage
    rw [if_pos h1, if_pos h2, if_pos h3]

/-- A concrete exposure table with A1/A2 and a concrete outcome without
them, for the C10 witness. -/
def w10e : DF :=
  ⟨["SNP", "A1", "A2", "BETA", "SE"],
   [[("SNP", Cell.str "rs1"), ("A1", Cell.str "A"), ("A2", Cell.str "G"),
     ("BETA", Cell.num 1), ("SE", Cell.num 1)]]⟩

/-- Outcome table lacking A1/A2. -/
def w10o : DF :=
  ⟨["SNP", "BETA"], [[("SNP", Cell.str "rs1"), ("BETA", Cell.num 2)]]⟩

/-- Witness for C10 at `w10e`/`w10o`: the exposure has A1/A2, the outcome
does not, and the stage and the run fail hard. -/
theorem C10_allele_decision_exposure_only_witness :
    (("A1" ∈ w10e.cols ∧ "A2" ∈ w10e.cols) → ("A1" ∉ w10o.cols ∨ "A2" ∉ w10o.cols) →
      (∃ msg, alleleStage w10e w10o = Except.error msg)) ∧
    (("A1" ∈ w10e.cols ∧ "A2" ∈ w10e.cols) → "SNP" ∈ w10e.cols → "SNP" ∈ w10o.cols →
      ("A1" ∉ w10o.cols ∨ "A2" ∉ w10o.cols) →
      (∃ msg, harmonise w10e w10o = Except.error msg)) ∧
    (¬ ("A1" ∈ w10e.cols ∧ "A2" ∈ w10e.cols) →
      alleleStage w10e w10o = Except.ok (w10e, w10o)) ∧
    (("A1" ∈ w10e.cols ∧ "A2" ∈ w10e.cols) → "A1" ∈ w10o.cols → "A2" ∈ w10o.cols →
      alleleStage w10e w10o =
        Except.ok (alleleFilterRows w10e, alleleFilterRows w10o)) :=
  C10_allele_decision_exposure_only w10e w10o

/-! ### Claim C3: the allele (INDEL) filter -/

/-- The four valid single-letter allele cells. -/
def strATCG : List Cell :=
  [Cell.str "A", Cell.str "T", Cell.str "C", Cell.str "G"]

/-- A cell failing the allele test: not a string at all, or a string of
length ≠ 1 or outside {A, T, C, G}. -/
def badAllele (c : Cell) : Prop :=
  match c with
  | Cell.str s => s.length ≠ 1 ∨ s ∉ (["A", "T", "C", "G"] : List String)
  | _ => True

theorem is_snp_allele_true_iff (c : Cell) :
    is_snp_allele c = true ↔ c ∈ strATCG := by
  unfold is_snp_allele strATCG
  cases c with
  | str s => simp [List.elem_iff]
  | na => simp
  | num q => simp
  | pinf => simp
  | ninf => simp

theorem is_snp_allele_false_bad (c : Cell) (h : is_snp_allele c = false) :
    badAllele c := by
  unfold is_snp_allele at h
  unfold badAllele
  cases c with
  | str s =>
      right
      intro hmem
      have hc : (["A", "T", "C", "G"] : List String).contains s = true :=
        List.elem_iff.mpr hmem
      dsimp only at h
      rw [hc] at h
      cases h
  | na => trivial
  | num q => trivial
  | pinf => trivial
  | ninf => trivial

theorem mem_commonStage_fst (eIn oIn : DF) (r : Row)
    (hr : r ∈ (commonStage eIn oIn).1.rows) :
    (∀ c ∈ eIn.cols, r.get c ≠ Cell.na) ∧
      (commonSNPs eIn oIn).contains (r.get "SNP") = true := by
  rcases List.mem_filter.mp hr with ⟨hm1, hkeep⟩
  rcases List.mem_filter.mp hm1 with ⟨_, hisin⟩
  constructor
  · intro c hc hna
    have hfalse : (filterIsin eIn (commonSNPs eIn oIn)).rowHasNa r = false := by
      cases hx : (filterIsin eIn (commonSNPs eIn oIn)).rowHasNa r with
      | false => rfl
      | true => rw [hx] at hkeep; cases hkeep
    unfold DF.rowHasNa at hfalse
    have hany : (filterIsin eIn (commonSNPs eIn oIn)).cols.any
        (fun c => r.get c = Cell.na) = true :=
      List.any_eq_true.mpr ⟨c, hc, by simp [hna]⟩
    rw [hany] at hfalse
    cases hfalse
  · exact hisin

theorem mem_commonStage_snd (eIn oIn : DF) (r : Row)
    (hr : r ∈ (commonStage eIn oIn).2.rows) :
    (∀ c ∈ oIn.cols, r.get c ≠ Cell.na) ∧
      (commonSNPs eIn oIn).contains (r.get "SNP") = true := by
  rcases List.mem_filter.mp hr with ⟨hm1, hkeep⟩
  rcases List.mem_filter.mp hm1 with ⟨_, hisin⟩
  constructor
  · intro c hc hna
    have hfalse : (filterIsin oIn (commonSNPs eIn oIn)).rowHasNa r = false := by
      cases hx : (filterIsin oIn (commonSNPs eIn oIn)).rowHasNa r with
      | false => rfl
      | true => rw [hx] at hkeep; cases hkeep
    unfold DF.rowHasNa at hfalse
    have hany : (filterIsin oIn (commonSNPs eIn oIn)).cols.any
        (fun c => r.get c = Cell.na) = true :=
      List.any_eq_true.mpr ⟨c, hc, by simp [hna]⟩
    rw [hany] at hfalse
    cases hfalse
  · exact hisin

theorem alleleFilterRows_retained (df : DF) (r : Row)
    (hr : r ∈ (alleleFilterRows df).rows) :
    r.get "A1" ∈ strATCG ∧ r.get "A2" ∈ strATCG := by
  rcases List.mem_filter.mp hr with ⟨_, hp⟩
  simp only [Bool.and_eq_true] at hp
  rcases hp with ⟨h1, h2⟩
  exact ⟨(is_snp_allele_true_iff _).mp h1, (is_snp_allele_true_iff _).mp h2⟩

theorem alleleFilterRows_removed (df : DF) (r : Row) (hr : r ∈ df.rows)
    (hout : r ∉ (alleleFilterRows df).rows) :
    badAllele (r.get "A1") ∨ badAllele (r.get "A2") := by
  by_cases hp : (is_snp_allele (r.get "A1") && is_snp_allele (r.get "A2")) = true
  · exact absurd (List.mem_filter.mpr ⟨hr, hp⟩) hout
  · rcases Bool.and_eq_false_iff.mp (by simpa using hp) with h | h
    · exact Or.inl (is_snp_allele_false_bad _ h)
    · exact Or.inr (is_snp_allele_false_bad _ h)

/-- C3: (i) every row retained by the allele stage has A1 and A2 among the
four single-letter allele strings; (ii) every row removed by the stage has
A1 or A2 failing that shape (length ≠ 1 or outside {A,T,C,G}, or not a
string value at all); (iii) identifier intersection and missing-value
dropping happen before allele filtering: the tables `harmonise` hands to the
allele stage are those of `commonStage`, whose rows have no missing value
under any column and carry an SNP present in both inputs. -/
theorem C3_variant_filter_allele_stage (e o e' o' : DF)
    (h4 : "A1" ∈ e.cols ∧ "A2" ∈ e.cols ∧ "A1" ∈ o.cols ∧ "A2" ∈ o.cols)
    (hst : alleleStage e o = Except.ok (e', o')) :
    (∀ r ∈ e'.rows, r.get "A1" ∈ strATCG ∧ r.get "A2" ∈ strATCG) ∧
    (∀ r ∈ o'.rows, r.get "A1" ∈ strATCG ∧ r.get "A2" ∈ strATCG) ∧
    (∀ r ∈ e.rows, r ∉ e'.rows → badAllele (r.get "A1") ∨ badAllele (r.get "A2")) ∧
    (∀ r ∈ o.rows, r ∉ o'.rows → badAllele (r.get "A1") ∨ badAllele (r.get "A2")) ∧
    (∀ eIn oIn : DF, ∀ r ∈ (commonStage eIn oIn).1.rows,
      (∀ c ∈ eIn.cols, r.get c ≠ Cell.na) ∧
        (commonSNPs eIn oIn).contains (r.get "SNP") = true) ∧
    (∀ eIn oIn : DF, ∀ r ∈ (commonStage eIn oIn).2.rows,
      (∀ c ∈ oIn.cols, r.get c ≠ Cell.na) ∧
        (commonSNPs eIn oIn).contains (r.get "SNP") = true) := by
  rcases h4 with ⟨hA1e, hA2e, hA1o, hA2o⟩
  have hok : alleleStage e o = Except.ok (alleleFilterRows e, alleleFilterRows o) := by
    unfold alleleStage
    rw [if_pos ⟨hA1e, hA2e⟩, if_pos hA1o, if_pos hA2o]
  rw [hok] at hst
  injection hst with hpair
  injection hpair with he ho
  refine ⟨?_, ?_, ?_, ?_, mem_commonStage_fst, mem_commonStage_snd⟩
  · intro r hr
    exact alleleFilterRows_retained e r (by rw [← he] at hr; exact hr)
  · intro r hr
    exact alleleFilterRows_retained o r (by rw [← ho] at hr; exact hr)
  · intro r hr hout
    exact alleleFilterRows_removed e r hr (by rw [he]; exact hout)
  · intro r hr hout
    exact alleleFilterRows_removed o r hr (by rw [ho]; exact hout)

/-- Exposure table for the C3 witness: one valid row, one INDEL row. -/
def w3e : DF :=
  ⟨["SNP", "A1", "A2"],
   [[("SNP", Cell.str "rs1"), ("A1", Cell.str "A"), ("A2", Cell.str "G")],
    [("SNP", Cell.str "rs2"), ("A1", Cell.str "AT"), ("A2", Cell.str "G")]]⟩

/-- Outcome table for the C3 witness. -/
def w3o : DF :=
  ⟨["SNP", "A1", "A2"],
   [[("SNP", Cell.str "rs1"), ("A1", Cell.str "A"), ("A2", Cell.str "G")]]⟩

/-- Witness for C3 at `w3e`/`w3o` (the two-letter allele row rs2 is the one
the filter removes). -/
theorem C3_variant_filter_allele_stage_witness :
    (∀ r ∈ (alleleFilterRows w3e).rows,
      r.get "A1" ∈ strATCG ∧ r.get "A2" ∈ strATCG) ∧
    (∀ r ∈ (alleleFilterRows w3o).rows,
      r.get "A1" ∈ strATCG ∧ r.get "A2" ∈ strATCG) ∧
    (∀ r ∈ w3e.rows, r ∉ (alleleFilterRows w3e).rows →
      badAllele (r.get "A1") ∨ badAllele (r.get "A2")) ∧
    (∀ r ∈ w3o.rows, r ∉ (alleleFilterRows w3o).rows →
      badAllele (r.get "A1") ∨ badAllele (r.get "A2")) ∧
    (∀ eIn oIn : DF, ∀ r ∈ (commonStage eIn oIn).1.rows,
      (∀ c ∈ eIn.cols, r.get c ≠ Cell.na) ∧
        (commonSNPs eIn oIn).contains (r.get "SNP") = true) ∧
    (∀ eIn oIn : DF, ∀ r ∈ (commonStage eIn oIn).2.rows,
      (∀ c ∈ oIn.cols, r.get c ≠ Cell.na) ∧
        (commonSNPs eIn oIn).contains (r.get "SNP") = true) :=
  C3_variant_filter_allele_stage w3e w3o (alleleFilterRows w3e) (alleleFilterRows w3o)
    ⟨by decide, by decide, by decide, by decide⟩ rfl

/-! ### Claim C1: instrument-strength threshold on the final table -/

theorem Cell.lt_not_ge (c : Cell) (t : ℚ) (h : Cell.lt c t = true) :
    Cell.ge c t = false := by
  unfold Cell.lt at h
  unfold Cell.ge
  cases c with
  | num q =>
      simp only [decide_eq_true_eq] at h
      simp only [decide_eq_false_iff_not]
      exact not_le.mpr h
  | ninf => rfl
  | na => cases h
  | pinf => cases h
  | str s => cases h

theorem setCol_mem_cols (df : DF) (c : String) (f : Row → Cell) :
    c ∈ (df.setCol c f).cols := by
  unfold DF.setCol
  by_cases h : c ∈ df.cols
  · dsimp only
    rw [if_pos h]
    exact h
  · dsimp only
    rw [if_neg h]
    simp

theorem mem_map_rename_entry (r : Row) (src dst key : String) (v : Cell)
    (hk : key ≠ src) (hmem : (key, v) ∈ r) :
    (key, v) ∈ r.map (fun q => if q.1 = src then (dst, q.2) else q) :=
  List.mem_map.mpr ⟨(key, v), hmem, by simp [hk]⟩

theorem renameOptCol_entry_preserved (df : DF) (src dst : String) (mrow' : Row)
    (hm : mrow' ∈ (renameOptCol df src dst).rows) :
    ∃ mrow ∈ df.rows, ∀ key v, key ≠ src → ((key, v) ∈ mrow → (key, v) ∈ mrow') := by
  unfold renameOptCol at hm
  by_cases h : src ∈ df.cols
  · rw [if_pos h] at hm
    unfold DF.renameCol at hm
    dsimp only at hm
    rcases List.mem_map.mp hm with ⟨mrow, hmr, rfl⟩
    exact ⟨mrow, hmr, fun key v hk hx => mem_map_rename_entry mrow src dst key v hk hx⟩
  · rw [if_neg h] at hm
    exact ⟨mrow', hm, fun key v _ hx => hx⟩

theorem renameEAF_entry_preserved (df : DF) (mrow' : Row)
    (hm : mrow' ∈ (renameEAF df).rows) :
    ∃ mrow ∈ df.rows, ∀ key v,
      key ≠ "riskFrequency_exp" → key ≠ "riskFrequency_out" →
      ((key, v) ∈ mrow → (key, v) ∈ mrow') := by
  unfold renameEAF at hm
  rcases renameOptCol_entry_preserved _ _ _ _ hm with ⟨mid, hmid, hpres2⟩
  rcases renameOptCol_entry_preserved _ _ _ _ hmid with ⟨mrow, hmr, hpres1⟩
  exact ⟨mrow, hmr, fun key v hk1 hk2 hx => hpres2 key v hk2 (hpres1 key v hk1 hx)⟩

theorem mem_mergeOn (key : String) (e o : DF) (mrow : Row)
    (hm : mrow ∈ (mergeOn key e o).rows) :
    ∃ re ∈ e.rows, ∃ ro ∈ o.rows, mrow = combineRow key e.cols o.cols re ro := by
  unfold mergeOn at hm
  dsimp only at hm
  rcases List.mem_flatMap.mp hm with ⟨re, hre, hmem⟩
  rcases List.mem_map.mp hmem with ⟨ro, hro, rfl⟩
  exact ⟨re, hre, ro, (List.mem_filter.mp hro).1, rfl⟩

theorem combineRow_fstat_entry (ecols ocols : List String) (re ro : Row)
    (hF : "F_stat" ∈ ecols) (hFo : "F_stat" ∉ ocols) :
    ("F_stat", re.get "F_stat") ∈ combineRow "SNP" ecols ocols re ro := by
  unfold combineRow
  apply List.mem_cons_of_mem
  apply List.mem_append_left
  apply List.mem_map.mpr
  refine ⟨"F_stat", List.mem_filter.mpr ⟨hF, by decide⟩, ?_⟩
  unfold suffixName
  have hnm : "F_stat" ∉ ocols.filter (fun c' => c' ≠ "SNP") :=
    fun hmem => hFo (List.mem_filter.mp hmem).1
  rw [if_neg hnm]

/-- C1: with the loaded tables run through the pipeline, (i) every exposure
row surviving the weak filter has `F_stat ≥ 10`; (ii) every scored row with
`F_stat < 10` is removed before the merge; (iii) the outcome is re-filtered
to the surviving exposure identifiers; (iv) when the exposure carries an SE
column, no warning fires and every scored row's F_stat is `BETA² / SE²`;
(v) when SE is entirely absent, the distinct warning path fires, every row
receives the sentinel 9999 and no row is removed for weakness; (vi) every
row of the final Harmonized Table carries an exposure-side `F_stat` entry
that is ≥ 10. -/
theorem C1_instrument_strength_threshold (e o e2 o2 e3 : DF) (wf : Bool) (m : DF)
    (hSNPe : "SNP" ∈ e.cols) (hSNPo : "SNP" ∈ o.cols)
    (hallele : alleleStage (commonStage e o).1 (commonStage e o).2 =
      Except.ok (e2, o2))
    (hcalc : calculate_f_statistics e2 = Except.ok (e3, wf))
    (hm : harmonise e o = Except.ok m) :
    (∀ re ∈ (fstatFilter e3).rows, Cell.ge (re.get "F_stat") 10 = true) ∧
    (∀ re ∈ e3.rows, Cell.lt (re.get "F_stat") 10 = true →
      re ∉ (fstatFilter e3).rows) ∧
    (∀ ro ∈ (outcomeRefilter (fstatFilter e3) o2).rows,
      ((fstatFilter e3).rows.map (fun re => re.get "SNP")).contains
        (ro.get "SNP") = true) ∧
    ("SE" ∈ e.cols → wf = false ∧ ∀ re ∈ e3.rows,
      re.get "F_stat" = Cell.cdiv (Cell.sq (re.get "BETA")) (Cell.sq (re.get "SE"))) ∧
    ("SE" ∉ e.cols → wf = true ∧ (∀ re ∈ e3.rows, re.get "F_stat" = Cell.num 9999) ∧
      fstatFilter e3 = e3) ∧
    ("F_stat" ∉ o.cols →
      ∀ mrow ∈ m.rows, ∃ v, ("F_stat", v) ∈ mrow ∧ Cell.ge v 10 = true) := by
  have hcols2 : e2.cols = e.cols ∧ o2.cols = o.cols := by
    have h := alleleStage_cols _ _ _ _ hallele
    exact ⟨h.1, h.2⟩
  have hA1 : ∀ re ∈ (fstatFilter e3).rows, Cell.ge (re.get "F_stat") 10 = true :=
    fun re hre => (List.mem_filter.mp hre).2
  refine ⟨hA1, ?_, ?_, ?_, ?_, ?_⟩
  · intro re hre hlt hmem
    have := (List.mem_filter.mp hmem).2
    rw [Cell.lt_not_ge _ _ hlt] at this
    cases this
  · intro ro hro
    exact (List.mem_filter.mp hro).2
  · intro hSE
    have hSE2 : "SE" ∈ e2.cols := by rw [hcols2.1]; exact hSE
    unfold calculate_f_statistics at hcalc
    rw [if_pos hSE2] at hcalc
    by_cases hB : "BETA" ∈ e2.cols
    · rw [if_pos hB] at hcalc
      injection hcalc with hp
      injection hp with h3 hwf
      refine ⟨hwf.symm, ?_⟩
      intro re hre
      rw [← h3] at hre
      rcases List.mem_map.mp hre with ⟨base, _, rfl⟩
      rw [Row.get_set_same, Row.get_set_other _ _ _ _ (by decide),
        Row.get_set_other _ _ _ _ (by decide)]
    · rw [if_neg hB] at hcalc
      cases hcalc
  · intro hSE
    have hSE2 : "SE" ∉ e2.cols := by rw [hcols2.1]; exact hSE
    unfold calculate_f_statistics at hcalc
    rw [if_neg hSE2] at hcalc
    injection hcalc with hp
    injection hp with h3 hwf
    have hall : ∀ re ∈ e3.rows, re.get "F_stat" = Cell.num 9999 := by
      intro re hre
      rw [← h3] at hre
      rcases List.mem_map.mp hre with ⟨base, _, rfl⟩
      rw [Row.get_set_same]
    refine ⟨hwf.symm, hall, ?_⟩
    apply DF.ext_eq
    · rfl
    · apply List.filter_eq_self.mpr
      intro re hre
      rw [hall re hre]
      unfold Cell.ge
      norm_num
  · intro hFo
    intro mrow' hmrow'
    have hX := harmonise_eq_of_stages e o e2 o2 e3 wf hSNPe hSNPo hallele hcalc
    rw [hm] at hX
    injection hX with hmeq
    have hF3 : "F_stat" ∈ (fstatFilter e3).cols := by
      show "F_stat" ∈ e3.cols
      unfold calculate_f_statistics at hcalc
      by_cases hSE2 : "SE" ∈ e2.cols
      · rw [if_pos hSE2] at hcalc
        by_cases hB : "BETA" ∈ e2.cols
        · rw [if_pos hB] at hcalc
          injection hcalc with hp
          injection hp with h3 _
          rw [← h3]
          exact setCol_mem_cols _ _ _
        · rw [if_neg hB] at hcalc
          cases hcalc
      · rw [if_neg hSE2] at hcalc
        injection hcalc with hp
        injection hp with h3 _
        rw [← h3]
        exact setCol_mem_cols _ _ _
    have hFo3 : "F_stat" ∉ (outcomeRefilter (fstatFilter e3) o2).cols := by
      show "F_stat" ∉ o2.cols
      rw [hcols2.2]
      exact hFo
    rw [hmeq] at hmrow'
    rcases renameEAF_entry_preserved _ _ hmrow' with ⟨mrow, hmr, hpres⟩
    rcases mem_mergeOn "SNP" _ _ _ hmr with ⟨re, hre, ro, hro, rfl⟩
    refine ⟨re.get "F_stat", ?_, hA1 re hre⟩
    apply hpres _ _ (by decide) (by decide)
    exact combineRow_fstat_entry _ _ re ro hF3 hFo3

/-- Exposure table for the C1 witness (SE present, no allele columns). -/
def w1e : DF :=
  ⟨["SNP", "BETA", "SE"],
   [[("SNP", Cell.str "rs1"), ("BETA", Cell.num 1), ("SE", Cell.num 1)]]⟩

/-- Outcome table for the C1 witness. -/
def w1o : DF :=
  ⟨["SNP", "BETA"], [[("SNP", Cell.str "rs1"), ("BETA", Cell.num 2)]]⟩

/-- The scored exposure table of the C1 witness run. -/
def w1e3 : DF :=
  ((commonStage w1e w1o).1).setCol "F_stat"
    (fun r => Cell.cdiv (Cell.sq (r.get "BETA")) (Cell.sq (r.get "SE")))

/-- The final merged table of the C1 witness run. -/
def w1m : DF :=
  renameEAF (mergeOn "SNP" (fstatFilter w1e3)
    (outcomeRefilter (fstatFilter w1e3) (commonStage w1e w1o).2))

/-- Witness for C1 at the one-row pair `w1e`/`w1o`. -/
theorem C1_instrument_strength_threshold_witness :
    (∀ re ∈ (fstatFilter w1e3).rows, Cell.ge (re.get "F_stat") 10 = true) ∧
    (∀ re ∈ w1e3.rows, Cell.lt (re.get "F_stat") 10 = true →
      re ∉ (fstatFilter w1e3).rows) ∧
    (∀ ro ∈ (outcomeRefilter (fstatFilter w1e3) (commonStage w1e w1o).2).rows,
      ((fstatFilter w1e3).rows.map (fun re => re.get "SNP")).contains
        (ro.get "SNP") = true) ∧
    ("SE" ∈ w1e.cols → false = false ∧ ∀ re ∈ w1e3.rows,
      re.get "F_stat" = Cell.cdiv (Cell.sq (re.get "BETA")) (Cell.sq (re.get "SE"))) ∧
    ("SE" ∉ w1e.cols → false = true ∧
      (∀ re ∈ w1e3.rows, re.get "F_stat" = Cell.num 9999) ∧
      fstatFilter w1e3 = w1e3) ∧
    ("F_stat" ∉ w1o.cols →
      ∀ mrow ∈ w1m.rows, ∃ v, ("F_stat", v) ∈ mrow ∧ Cell.ge v 10 = true) :=
  C1_instrument_strength_threshold w1e w1o
    (commonStage w1e w1o).1 (commonStage w1e w1o).2 w1e3 false w1m
    (by decide) (by decide)
    (by unfold alleleStage; rw [if_neg (by decide)])
    (by unfold calculate_f_statistics; rw [if_pos (by decide), if_pos (by decide)]; rfl)
    (harmonise_eq_of_stages w1e w1o (commonStage w1e w1o).1 (commonStage w1e w1o).2
      w1e3 false (by decide) (by decide)
      (by unfold alleleStage; rw [if_neg (by decide)])
      (by unfold calculate_f_statistics; rw [if_pos (by decide), if_pos (by decide)]; rfl))

/-! ### Claim C5: behaviour on an empty merge -/

/-- Exposure input for the C5 counterexample: one row, identifier rs1. -/
def w5e : DF := ⟨["SNP"], [[("SNP", Cell.str "rs1")]]⟩

/-- Outcome input for the C5 counterexample: one row, identifier rs2. -/
def w5o : DF := ⟨["SNP"], [[("SNP", Cell.str "rs2")]]⟩

/-- Counterexample to C5: both inputs have a row, the identifier sets are
disjoint, the merge is empty — and the pipeline still ends in the
output-writing success path (`Except.ok`) with a zero-row table, instead of
halting with a non-zero exit status. -/
theorem C5_counterexample :
    w5e.rows.length = 1 ∧ w5o.rows.length = 1 ∧
    ∃ m, harmonise w5e w5o = Except.ok m ∧ m.rows.length = 0 :=
  ⟨rfl, rfl, ⟨_, rfl, rfl⟩⟩

/-- C5 amended: the pipeline performs no empty-merge check.  Whenever the
column prerequisites of the stages hold (SNP on both sides; outcome allele
columns when the exposure has them; BETA when SE is present), the run ends
in the success path and writes the merged table — whatever its row count,
zero included. -/
theorem C5_amended_no_empty_merge_check (e o : DF)
    (hSNPe : "SNP" ∈ e.cols) (hSNPo : "SNP" ∈ o.cols)
    (hA : ("A1" ∈ e.cols ∧ "A2" ∈ e.cols) → ("A1" ∈ o.cols ∧ "A2" ∈ o.cols))
    (hB : "SE" ∈ e.cols → "BETA" ∈ e.cols) :
    ∃ m, harmonise e o = Except.ok m := by
  have hce : (commonStage e o).1.cols = e.cols := rfl
  have hco : (commonStage e o).2.cols = o.cols := rfl
  have hca : ∃ p, alleleStage (commonStage e o).1 (commonStage e o).2 =
      Except.ok p := by
    unfold alleleStage
    by_cases h1 : "A1" ∈ (commonStage e o).1.cols ∧ "A2" ∈ (commonStage e o).1.cols
    · have h2 := hA (by rw [← hce]; exact h1)
      rw [if_pos h1, if_pos (show "A1" ∈ (commonStage e o).2.cols by rw [hco]; exact h2.1),
        if_pos (show "A2" ∈ (commonStage e o).2.cols by rw [hco]; exact h2.2)]
      exact ⟨_, rfl⟩
    · rw [if_neg h1]
      exact ⟨_, rfl⟩
  rcases hca with ⟨⟨e2, o2⟩, hp⟩
  have hcf : ∃ q, calculate_f_statistics e2 = Except.ok q := by
    unfold calculate_f_statistics
    by_cases hSE : "SE" ∈ e2.cols
    · have hBe : "BETA" ∈ e2.cols := by
        rw [(alleleStage_cols _ _ _ _ hp).1, hce]
        apply hB
        rw [← hce, ← (alleleStage_cols _ _ _ _ hp).1]
        exact hSE
      rw [if_pos hSE, if_pos hBe]
      exact ⟨_, rfl⟩
    · rw [if_neg hSE]
      exact ⟨_, rfl⟩
  rcases hcf with ⟨⟨e3, wf⟩, hq⟩
  exact ⟨_, harmonise_eq_of_stages e o e2 o2 e3 wf hSNPe hSNPo hp hq⟩

/-- Witness for the amended C5 at `w5e`/`w5o`: the run succeeds (and, per
the counterexample, its merged table is empty). -/
theorem C5_amended_no_empty_merge_check_witness :
    ∃ m, harmonise w5e w5o = Except.ok m :=
  C5_amended_no_empty_merge_check w5e w5o (by decide) (by decide)
    (by intro h; exact absurd h.1 (by decide)) (by intro h; exact absurd h (by decide))

/-! ### Claim C4: merge cardinality -/

/-- Duplicate-identifier exposure input for the C4 counterexample. -/
def w4e : DF := ⟨["SNP"], [[("SNP", Cell.str "rs1")], [("SNP", Cell.str "rs1")]]⟩

/-- Duplicate-identifier outcome input for the C4 counterexample. -/
def w4o : DF := ⟨["SNP"], [[("SNP", Cell.str "rs1")], [("SNP", Cell.str "rs1")]]⟩

/-- The scored exposure table of the C4 counterexample run (sentinel path:
no SE column). -/
def w4e3 : DF := ((commonStage w4e w4o).1).setCol "F_stat" (fun _ => Cell.num 9999)

/-- The final merged table of the C4 counterexample run. -/
def w4m : DF :=
  renameEAF (mergeOn "SNP" (fstatFilter w4e3)
    (outcomeRefilter (fstatFilter w4e3) (commonStage w4e w4o).2))

/-- Counterexample to C4: with the identifier rs1 duplicated on both sides,
the tables reaching the merge have 2 rows each, yet the inner join fans out
to 4 rows — more than min(2, 2). -/
theorem C4_counterexample :
    harmonise w4e w4o = Except.ok w4m ∧
    (fstatFilter w4e3).rows.length = 2 ∧
    (outcomeRefilter (fstatFilter w4e3) (commonStage w4e w4o).2).rows.length = 2 ∧
    w4m.rows.length = 4 ∧
    ¬ (w4m.rows.length ≤ min (fstatFilter w4e3).rows.length
        (outcomeRefilter (fstatFilter w4e3) (commonStage w4e w4o).2).rows.length) :=
  ⟨rfl, by decide, by decide, by decide, by decide⟩

theorem length_filter_split (l : List Row) (p : Row → Bool) :
    (l.filter p).length + (l.filter (fun x => !(p x))).length = l.length := by
  induction l with
  | nil => rfl
  | cons a l' ih =>
      simp only [List.filter_cons]
      cases h : p a
      · rw [if_neg (by simp [h]), if_pos (by simp [h])]
        simp only [List.length_cons]
        omega
      · rw [if_pos (by simp [h]), if_neg (by simp [h])]
        simp only [List.length_cons]
        omega

theorem filter_beq_length_le_one (os : List Row) (key : String)
    (hO : (os.map (fun r => r.get key)).Nodup) (v : Cell) :
    (os.filter (fun ro => ro.get key == v)).length ≤ 1 := by
  induction os with
  | nil => simp
  | cons a os' ih =>
      simp only [List.map_cons, List.nodup_cons] at hO
      simp only [List.filter_cons]
      by_cases h : (a.get key == v) = true
      · rw [if_pos h]
        simp only [List.length_cons]
        have hnil : os'.filter (fun ro => ro.get key == v) = [] := by
          apply List.filter_eq_nil_iff.mpr
          intro b hb hbv
          apply hO.1
          have hav : a.get key = v := by rwa [beq_iff_eq] at h
          have hbv' : b.get key = v := by rwa [beq_iff_eq] at hbv
          rw [hav, ← hbv']
          exact List.mem_map.mpr ⟨b, hb, rfl⟩
        rw [hnil]
        simp
      · rw [if_neg h]
        exact ih hO.2

theorem sum_le_length_of_le_one (l : List ℕ) (h : ∀ x ∈ l, x ≤ 1) :
    l.sum ≤ l.length := by
  induction l with
  | nil => simp
  | cons a l' ih =>
      simp only [List.sum_cons, List.length_cons]
      have h1 := h a (by simp)
      have h2 := ih (fun x hx => h x (by simp [hx]))
      omega

theorem filter_beq_of_filter_ne (os : List Row) (key : String) (v v' : Cell)
    (hne : v' ≠ v) :
    (os.filter (fun ro => !(ro.get key == v))).filter
        (fun ro => ro.get key == v') =
      os.filter (fun ro => ro.get key == v') := by
  induction os with
  | nil => rfl
  | cons a os' ih =>
      simp only [List.filter_cons]
      cases h2 : (a.get key == v) with
      | true =>
          rw [if_neg (by simp [h2])]
          have hrv : (a.get key == v') = false := by
            rw [beq_iff_eq] at h2
            rw [beq_eq_false_iff_ne, h2]
            exact fun he => hne he.symm
          rw [if_neg (by simp [hrv]), ih]
      | false =>
          rw [if_pos (by simp [h2])]
          simp only [List.filter_cons]
          by_cases h : (a.get key == v') = true
          · rw [if_pos h, if_pos h, ih]
          · rw [if_neg h, if_neg h, ih]

theorem sum_match_counts_le (es : List Row) (key : String)
    (hE : (es.map (fun r => r.get key)).Nodup) :
    ∀ os : List Row,
      (es.map (fun re =>
        (os.filter (fun ro => ro.get key == re.get key)).length)).sum ≤ os.length := by
  induction es with
  | nil => intro os; simp
  | cons re es' ih =>
      intro os
      simp only [List.map_cons, List.nodup_cons] at hE
      simp only [List.map_cons, List.sum_cons]
      have hswap : (es'.map (fun re' =>
          (os.filter (fun ro => ro.get key == re'.get key)).length)).sum =
          (es'.map (fun re' =>
            (((os.filter (fun ro => !(ro.get key == re.get key))).filter
              (fun ro => ro.get key == re'.get key)).length))).sum := by
        congr 1
        apply List.map_congr_left
        intro re' hre'
        rw [filter_beq_of_filter_ne os key (re.get key) (re'.get key)
          (fun he => hE.1 (by rw [← he]; exact List.mem_map.mpr ⟨re', hre', rfl⟩))]
      rw [hswap]
      have h1 := ih hE.2 (os.filter (fun ro => !(ro.get key == re.get key)))
      have hsplit := length_filter_split os (fun ro => ro.get key == re.get key)
      omega

theorem sum_match_counts_eq (es : List Row) (key : String)
    (hE : (es.map (fun r => r.get key)).Nodup) :
    ∀ os : List Row,
      (os.map (fun r => r.get key)).Nodup →
      (∀ ro ∈ os, ro.get key ∈ es.map (fun r => r.get key)) →
      (es.map (fun re =>
        (os.filter (fun ro => ro.get key == re.get key)).length)).sum = os.length := by
  induction es with
  | nil =>
      intro os _ hsub
      cases os with
      | nil => simp
      | cons ro os' => exact absurd (hsub ro (by simp)) (by simp)
  | cons re es' ih =>
      intro os hO hsub
      simp only [List.map_cons, List.nodup_cons] at hE
      simp only [List.map_cons, List.sum_cons]
      have hswap : (es'.map (fun re' =>
          (os.filter (fun ro => ro.get key == re'.get key)).length)).sum =
          (es'.map (fun re' =>
            (((os.filter (fun ro => !(ro.get key == re.get key))).filter
              (fun ro => ro.get key == re'.get key)).length))).sum := by
        congr 1
        apply List.map_congr_left
        intro re' hre'
        rw [filter_beq_of_filter_ne os key (re.get key) (re'.get key)
          (fun he => hE.1 (by rw [← he]; exact List.mem_map.mpr ⟨re', hre', rfl⟩))]
      rw [hswap]
      have hO' : ((os.filter (fun ro => !(ro.get key == re.get key))).map
          (fun r => r.get key)).Nodup :=
        ((List.filter_sublist os).map (fun r => r.get key)).nodup hO
      have hsub' : ∀ ro ∈ os.filter (fun ro => !(ro.get key == re.get key)),
          ro.get key ∈ es'.map (fun r => r.get key) := by
        intro ro hro
        rcases List.mem_filter.mp hro with ⟨hro1, hro2⟩
        have hx := hsub ro hro1
        rw [List.map_cons] at hx
        rcases List.mem_cons.mp hx with h | h
        · exfalso
          rw [h] at hro2
          simp at hro2
        · exact h
      have h1 := ih hE.2 (os.filter (fun ro => !(ro.get key == re.get key))) hO' hsub'
      have hsplit := length_filter_split os (fun ro => ro.get key == re.get key)
      omega

theorem mergeOn_length (e o : DF) (key : String) :
    (mergeOn key e o).rows.length =
      (e.rows.map (fun re =>
        (o.rows.filter (fun ro => ro.get key == re.get key)).length)).sum := by
  unfold mergeOn
  dsimp only
  rw [List.length_flatMap]
  congr 1
  apply List.map_congr_left
  intro re _
  simp [List.length_map]

/-- C4 amended: the inner-join row count is at most min(exposure, outcome)
row counts PROVIDED the SNP identifiers are unique within each table (with
duplicate identifiers the join fans out and can exceed it); under
uniqueness, equality holds when additionally every outcome row's identifier
appears among the exposure rows — which the pipeline's outcome re-filtering
stage guarantees for the tables actually merged. -/
theorem C4_amended_merge_cardinality (e o : DF)
    (hE : (e.rows.map (fun r => r.get "SNP")).Nodup)
    (hO : (o.rows.map (fun r => r.get "SNP")).Nodup) :
    ((mergeOn "SNP" e o).rows.length ≤ min e.rows.length o.rows.length) ∧
    ((∀ ro ∈ o.rows, ro.get "SNP" ∈ e.rows.map (fun r => r.get "SNP")) →
      (mergeOn "SNP" e o).rows.length = min e.rows.length o.rows.length) ∧
    (∀ e' : DF, ∀ ro ∈ (outcomeRefilter e' o).rows,
      ro.get "SNP" ∈ e'.rows.map (fun r => r.get "SNP")) := by
  have hlen := mergeOn_length e o "SNP"
  have hleE : (e.rows.map (fun re =>
      (o.rows.filter (fun ro => ro.get "SNP" == re.get "SNP")).length)).sum ≤
      e.rows.length := by
    have := sum_le_length_of_le_one
      (e.rows.map (fun re =>
        (o.rows.filter (fun ro => ro.get "SNP" == re.get "SNP")).length))
      (by
        intro x hx
        rcases List.mem_map.mp hx with ⟨re, _, rfl⟩
        exact filter_beq_length_le_one o.rows "SNP" hO (re.get "SNP"))
    simpa using this
  have hleO := sum_match_counts_le e.rows "SNP" hE o.rows
  refine ⟨?_, ?_, ?_⟩
  · rw [hlen]
    exact le_min hleE hleO
  · intro hsub
    rw [hlen, sum_match_counts_eq e.rows "SNP" hE o.rows hO hsub]
    have ho_le : o.rows.length ≤ e.rows.length := by
      have hsubmap : o.rows.map (fun r => r.get "SNP") ⊆
          e.rows.map (fun r => r.get "SNP") := by
        intro x hx
        rcases List.mem_map.mp hx with ⟨ro, hro, rfl⟩
        exact hsub ro hro
      have := (List.subperm_of_subset hO hsubmap).length_le
      simpa using this
    exact (min_eq_right ho_le).symm
  · intro e' ro hro
    rcases List.mem_filter.mp hro with ⟨_, hc⟩
    exact List.elem_iff.mp hc

/-- Unique-identifier tables for the C4 amended witness. -/
def w4ue : DF := ⟨["SNP"], [[("SNP", Cell.str "rs1")], [("SNP", Cell.str "rs2")]]⟩

/-- Unique-identifier outcome for the C4 amended witness. -/
def w4uo : DF := ⟨["SNP"], [[("SNP", Cell.str "rs1")]]⟩

/-- Witness for the amended C4 at `w4ue`/`w4uo`. -/
theorem C4_amended_merge_cardinality_witness :
    ((mergeOn "SNP" w4ue w4uo).rows.length ≤
      min w4ue.rows.length w4uo.rows.length) ∧
    ((∀ ro ∈ w4uo.rows, ro.get "SNP" ∈ w4ue.rows.map (fun r => r.get "SNP")) →
      (mergeOn "SNP" w4ue w4uo).rows.length =
        min w4ue.rows.length w4uo.rows.length) ∧
    (∀ e' : DF, ∀ ro ∈ (outcomeRefilter e' w4uo).rows,
      ro.get "SNP" ∈ e'.rows.map (fun r => r.get "SNP")) :=
  C4_amended_merge_cardinality w4ue w4uo (by decide) (by decide)

/-! ### Claim C8: mutual consistency of the two field derivations -/

/-- The interface of the external standard-normal distribution the two
scripts rely on: the CDF (`norm.cdf`, with `norm.sf x = 1 - cdf x`) and the
quantile function (`norm.ppf`), over an ordered field. -/
structure NormalModel (α : Type) [LinearOrderedField α] where
  cdf : α → α
  ppf : α → α

/-- The survival function `norm.sf`. -/
def NormalModel.sf {α : Type} [LinearOrderedField α] (M : NormalModel α)
    (x : α) : α :=
  1 - M.cdf x

/-- The PVALUE derivation of `01_exploratory_analysis.py` (lines 105-108):
`Z = BETA / SE; PVALUE = 2 * norm.sf(|Z|)`. -/
def derive_pvalue {α : Type} [LinearOrderedField α] (M : NormalModel α)
    (beta se : α) : α :=
  2 * M.sf |beta / se|

/-- The SE derivation of `02_gwas_preprocessing.py` (line 117):
`SE = |BETA / norm.ppf(PVALUE / 2)|`. -/
def infer_se_scalar {α : Type} [LinearOrderedField α] (M : NormalModel α)
    (beta pvalue : α) : α :=
  |beta / M.ppf (pvalue / 2)|

/-- C8: for every row with BETA ≠ 0 and SE > 0, deriving
PVALUE = 2·(1 − Φ(|BETA/SE|)) and then SE' = |BETA / Φ⁻¹(PVALUE/2)| from
BETA and that derived PVALUE reproduces the original SE exactly in the
idealized field model (hence within floating-point tolerance in the
implementation), given the standard-normal reflection law
`Φ⁻¹(1 − Φ(x)) = −x`. -/
theorem C8_derivation_round_trip {α : Type} [LinearOrderedField α]
    (M : NormalModel α) (hrefl : ∀ x, M.ppf (1 - M.cdf x) = -x)
    (beta se : α) (hb : beta ≠ 0) (hs : 0 < se) :
    infer_se_scalar M beta (derive_pvalue M beta se) = se := by
  unfold infer_se_scalar derive_pvalue NormalModel.sf
  have h2 : (2 : α) * (1 - M.cdf |beta / se|) / 2 = 1 - M.cdf |beta / se| :=
    mul_div_cancel_left₀ _ two_ne_zero
  rw [h2, hrefl, div_neg, abs_neg, abs_div, abs_abs, abs_div]
  have hb' : |beta| ≠ 0 := abs_ne_zero.mpr hb
  rw [div_div_eq_mul_div, mul_comm |beta| |se|, mul_div_assoc, div_self hb',
    mul_one]
  exact abs_of_pos hs

/-- A rational stand-in satisfying the reflection law used by C8. -/
def w8model : NormalModel ℚ := ⟨fun x => 1 / 2 + x, fun y => y - 1 / 2⟩

/-- Witness for C8 at BETA = 2, SE = 1 under `w8model`. -/
theorem C8_derivation_round_trip_witness :
    infer_se_scalar w8model 2 (derive_pvalue w8model 2 1) = 1 :=
  C8_derivation_round_trip w8model
    (by
      intro x
      show (1 - (1 / 2 + x)) - 1 / 2 = -x
      ring)
    2 1 (by norm_num) (by norm_num)

end MRCoPe
